import Mathlib

/-!
Verification development for the symbolic bytecode tracer of
`src/torchdynamo/symbolic_convert.py` (the core of the towhee-compiler
repository).  The Python source is shallowly embedded below: the tracer
state becomes an explicit record, each opcode handler becomes a function
`TracerState → Instr → Except Abort TracerState`, raised Python
exceptions become `Except.error` values, and the `run` loop becomes a
fuel-indexed iteration (a Python trace can genuinely diverge on backward
jumps, so termination is not assumed).

The repository files `variable_tracker.py`, `guards.py`,
`bytecode_transformation.py` and `allowed_functions.py` are imported by
the source but are not part of the sources provided; the definitions
taken from them are modelled from the specification and marked
`Modelled from the spec:` in their doc comments.
-/

namespace SymbolicConvert

/-- Modelled from the spec: support-state tag of a symbolic value
(`variable_tracker.TracingSupported` is not in the provided sources).
The spec describes states fully modeled / unknown / not modeled, combined
by taking the least capable state among inputs. -/
inductive TracingSupported where
  | NO
  | UNKNOWN
  | YES
deriving DecidableEq, Repr

/-- Modelled from the spec: capability rank used to combine support
states ("the least-capable state among inputs — any unsupported input
poisons the result"). -/
def TracingSupported.rank : TracingSupported → Nat
  | .NO => 0
  | .UNKNOWN => 1
  | .YES => 2

/-- Modelled from the spec: combination of two support states, keeping
the least capable one. -/
def TracingSupported.combine (a b : TracingSupported) : TracingSupported :=
  if a.rank ≤ b.rank then a else b

/-- Modelled from the spec: origin of a guarded binding
(`guards.GuardSource`): local slot or global name. -/
inductive GuardSource where
  | LOCAL
  | GLOBAL
deriving DecidableEq, Repr

/-- Modelled from the spec: requirement kind of a guard
(`guards.GuardRequirement`): type match, exact-value match, or identity
match of a callable/module. -/
inductive GuardRequirement where
  | TYPE_MATCH
  | VALUE_MATCH
  | FUNCTION_MATCH
deriving DecidableEq, Repr

/-- Modelled from the spec: a guard is an immutable record of a named
binding, its origin and a requirement kind; equality is by the triple. -/
structure Guard where
  name : String
  source : GuardSource
  requirement : GuardRequirement
deriving DecidableEq, Repr

/-- Decoded Python constant values, as they occur as instruction
arguments and `ConstantVariable` payloads in the traced code. -/
inductive PyVal where
  | none
  | bool (b : Bool)
  | int (n : Int)
  | str (s : String)
  | tup (xs : List PyVal)

/-- Python truthiness of a decoded constant, as used by
`POP_JUMP_IF_FALSE` (`if not value.value`). -/
def PyVal.truthy : PyVal → Bool
  | .none => false
  | .bool b => b
  | .int n => n ≠ 0
  | .str s => s ≠ ""
  | .tup xs => !xs.isEmpty

mutual

/-- Boolean equality on decoded constants (dictionary keys in
`BUILD_MAP` / `BUILD_CONST_KEY_MAP` are compared by value). -/
def PyVal.beq : PyVal → PyVal → Bool
  | .none, .none => true
  | .bool a, .bool b => a == b
  | .int a, .int b => a == b
  | .str a, .str b => a == b
  | .tup a, .tup b => PyVal.beqList a b
  | _, _ => false

/-- Elementwise `PyVal.beq` on lists (tuple payloads). -/
def PyVal.beqList : List PyVal → List PyVal → Bool
  | [], [] => true
  | x :: xs, y :: ys => PyVal.beq x y && PyVal.beqList xs ys
  | _, _ => false

end

/-- Concrete runtime objects found in the frame's binding tables
(`f_locals`, `f_globals`).  `torch.Tensor` and `torch.nn.Module` are
opaque to the tracer beyond their type, their attribute structure, and
the external allow-list verdict, so they are embedded that way;
`allowedFM` carries the verdict of the external `is_allowed` predicate
for functions/modules (spec: "purely a lookup, no side effects"). -/
inductive PyObj where
  | tensor
  | nnmod (cls : String) (clsAllowed : Bool) (attrs : List (String × PyObj))
  | vbool (b : Bool)
  | vnone
  | allowedFM (ident : String) (attrs : List (String × PyObj))
  | other (tyname : String)

/-- Python `type(value).__name__` for runtime objects, used in abort
messages. -/
def PyObj.tyname : PyObj → String
  | .tensor => "Tensor"
  | .nnmod cls _ _ => cls
  | .vbool _ => "bool"
  | .vnone => "NoneType"
  | .allowedFM _ _ => "function"
  | .other t => t

/-- Verdict of the external allow-list on a runtime object, as consulted
by `LOAD_GLOBAL` (`is_allowed(value)`). -/
def PyObj.isAllowedObj : PyObj → Bool
  | .allowedFM _ _ => true
  | _ => false

/-- Verdict of the external allow-list on the class of a runtime object,
as consulted by the sub-component call path (`is_allowed(mod.__class__)`). -/
def PyObj.isAllowedClass : PyObj → Bool
  | .nnmod _ a _ => a
  | _ => false

/-- Python `getattr` on an embedded runtime object: looks up the
attribute table of modules and allowed functions/modules; anything else
raises `AttributeError`. -/
def PyObj.getattr (o : PyObj) (name : String) : Option PyObj :=
  match o with
  | .nnmod _ _ attrs => attrs.lookup name
  | .allowedFM _ attrs => attrs.lookup name
  | _ => Option.none

/-- The symbolic value model: the `VariableTracker` hierarchy used by
the tracer.  Constructor names mirror the source class names; each
variant carries its support state and accumulated guard list (Python
stores guards in a `set`; the embedding keeps the list and compares via
`List.toFinset`).  `rawNone` is the bare Python `None` pushed onto the
operand stack by `LOAD_METHOD` (it is not a `VariableTracker`; touching
its attributes raises). -/
inductive VT where
  | ConstantVariable (value : PyVal) (state : TracingSupported) (guards : List Guard)
  | TensorVariable (proxy : String) (state : TracingSupported) (guards : List Guard)
  | NNModuleVariable (key : String) (state : TracingSupported) (guards : List Guard)
  | GetAttrVariable (obj : VT) (name : String) (state : TracingSupported) (guards : List Guard)
  | TupleVariable (items : List VT) (state : TracingSupported) (guards : List Guard)
  | ListVariable (items : List VT) (state : TracingSupported) (guards : List Guard)
  | SliceVariable (items : List VT) (state : TracingSupported) (guards : List Guard)
  | ConstDictVariable (items : List (PyVal × VT)) (state : TracingSupported) (guards : List Guard)
  | AllowedFunctionOrModuleVariable (value : PyObj) (state : TracingSupported) (guards : List Guard)
  | rawNone

/-- Python `type(v).__name__` for stack values, used in abort messages. -/
def VT.tyname : VT → String
  | .ConstantVariable _ _ _ => "ConstantVariable"
  | .TensorVariable _ _ _ => "TensorVariable"
  | .NNModuleVariable _ _ _ => "NNModuleVariable"
  | .GetAttrVariable _ _ _ _ => "GetAttrVariable"
  | .TupleVariable _ _ _ => "TupleVariable"
  | .ListVariable _ _ _ => "ListVariable"
  | .SliceVariable _ _ _ => "SliceVariable"
  | .ConstDictVariable _ _ _ => "ConstDictVariable"
  | .AllowedFunctionOrModuleVariable _ _ _ => "AllowedFunctionOrModuleVariable"
  | .rawNone => "NoneType"

/-- The kinds of failure a trace can abort with.  `unsupported` embeds
the `NotImplementedError` raised by `unimplemented(name)` — the explicit
Unsupported signal of the spec; the other constructors embed the other
Python exception classes reaching the orchestrator boundary
(`AssertionError` from `assert`, `KeyError` / `IndexError` /
`AttributeError` / `TypeError` from builtin operations). -/
inductive Abort where
  | unsupported (tag : String)
  | assertFail (msg : String)
  | keyError (key : String)
  | indexError
  | attrError (msg : String)
  | typeError (msg : String)
deriving DecidableEq, Repr

/-- True exactly on the explicit Unsupported abort signal
(`NotImplementedError`), false on every other exception kind. -/
def Abort.isUnsupportedSignal : Abort → Bool
  | .unsupported _ => true
  | _ => false

/-- `unimplemented(name)` from the source: raise the Unsupported signal
carrying a human-readable tag (the statistics counter it also bumps is
process-wide logging, outside the traced state). -/
def unimplemented (tag : String) : Except Abort α := .error (.unsupported tag)

/-- Support state of a stack value (`v.state`); the bare `None` pushed
by `LOAD_METHOD` has no such attribute. -/
def VT.state : VT → Except Abort TracingSupported
  | .ConstantVariable _ st _ => .ok st
  | .TensorVariable _ st _ => .ok st
  | .NNModuleVariable _ st _ => .ok st
  | .GetAttrVariable _ _ st _ => .ok st
  | .TupleVariable _ st _ => .ok st
  | .ListVariable _ st _ => .ok st
  | .SliceVariable _ st _ => .ok st
  | .ConstDictVariable _ st _ => .ok st
  | .AllowedFunctionOrModuleVariable _ st _ => .ok st
  | .rawNone => .error (.attrError "NoneType has no attribute state")

/-- Guard list of a stack value (`v.guards`). -/
def VT.guards : VT → Except Abort (List Guard)
  | .ConstantVariable _ _ gs => .ok gs
  | .TensorVariable _ _ gs => .ok gs
  | .NNModuleVariable _ _ gs => .ok gs
  | .GetAttrVariable _ _ _ gs => .ok gs
  | .TupleVariable _ _ gs => .ok gs
  | .ListVariable _ _ gs => .ok gs
  | .SliceVariable _ _ gs => .ok gs
  | .ConstDictVariable _ _ gs => .ok gs
  | .AllowedFunctionOrModuleVariable _ _ gs => .ok gs
  | .rawNone => .error (.attrError "NoneType has no attribute guards")

/-- The `state`/`guards` keyword bundle produced by
`VariableTracker.propagate`. -/
structure VarOptions where
  state : TracingSupported
  guards : List Guard

/-- Modelled from the spec: `VariableTracker.propagate(vars)`
(`variable_tracker.py` is not in the provided sources).  Per §4.1 it
returns the least-capable support state among the inputs and the union
of their guard sets; on an empty input the constructor defaults apply
(state unknown, no guards). -/
def propagate : List VT → Except Abort VarOptions
  | [] => .ok ⟨.UNKNOWN, []⟩
  | v :: vs => do
    let st ← v.state
    let gs ← v.guards
    let rest ← propagate vs
    match rest, vs with
    | _, [] => .ok ⟨st, gs⟩
    | r, _ => .ok ⟨st.combine r.state, gs ++ r.guards⟩

/-- Rendering of a decoded constant into a proxy-argument string (node
arguments are opaque to every claim; only their presence is kept). -/
def PyVal.render : PyVal → String
  | .none => "None"
  | .bool b => if b then "True" else "False"
  | .int n => toString n
  | .str s => s
  | .tup _ => "tuple"

/-- Modelled from the spec: `v.as_proxy()` — the graph-node reference
(or literal constant) a value contributes as a call argument.  Values
with no graph backing have no proxy and raise. -/
def VT.asProxy : VT → Except Abort String
  | .TensorVariable p _ _ => .ok p
  | .ConstantVariable v _ _ => .ok v.render
  | .GetAttrVariable obj name _ _ => do
    let p ← obj.asProxy
    .ok (p ++ "." ++ name)
  | v => .error (.attrError (v.tyname ++ " has no proxy"))

/-- Kinds of dataflow-graph nodes (`fx.Graph` node opcodes used by the
tracer). -/
inductive NodeOp where
  | placeholder
  | call_function
  | call_method
  | call_module
  | get_attr
  | output
deriving DecidableEq, Repr

/-- A dataflow-graph node.  `target` is the display target (operator
name, sub-component key, attribute path); for placeholders `base`
records the source binding name whose formatted name
`base ++ "_" ++ counter` the source passes to `create_proxy`. -/
structure Node where
  op : NodeOp
  target : String
  base : String := ""
  args : List String := []

/-- An abstract instruction.  The source's single decoded `argval` field
is split by payload kind: `argstr` for name-valued arguments, `argnum`
for count-valued arguments, `argconst` for constant payloads
(`LOAD_CONST`, keyword-name tuples).  `target` is the jump target as an
index into the instruction sequence offered to the tracer (the source
keeps an object reference and recovers the index through `indexof`,
which is identity-keyed, so the index view is equivalent). -/
structure Instr where
  opname : String
  argstr : String := ""
  argnum : Nat := 0
  argconst : PyVal := PyVal.none
  target : Option Nat := Option.none

/-- A captured-argument descriptor: `LocalArg` (load by local slot) or
`GlobalArg` (load by global name), as appended to `graphargs`. -/
inductive GraphArg where
  | LocalArg (name : String)
  | GlobalArg (name : String)

/-- The binding name of a captured-argument descriptor. -/
def GraphArg.name : GraphArg → String
  | .LocalArg n => n
  | .GlobalArg n => n

/-- The full mutable state of one `InstructionTracer`, plus the mutable
code-object metadata (`code_options`) it rewrites, plus three ghost
fields (`phLog`, `branchLog`, `retGuards`) used only by proofs: no
handler ever reads them.  `uidName` is the name minted by the external
`unique_id("__translated_fn")` collaborator (a process-wide counter,
modelled as an input). -/
structure TracerState where
  graph : List Node
  instructions : List Instr
  stack : List VT
  symbolic_locals : List (String × VT)
  f_globals : List (String × PyObj)
  f_builtins : List String
  instruction_pointer : Nat
  cnt : Nat
  gcnt : Nat
  graphargs : List GraphArg
  nn_modules : List (String × PyObj)
  guards : Finset Guard
  co_varnames : List String
  co_names : List String
  co_stacksize : Nat
  uidName : String
  phLog : List String := []
  branchLog : List (Finset Guard) := []
  retGuards : Option (Finset Guard) := Option.none

/-- Index of the last placeholder node in graph order
(`[n for n in self.graph.nodes if n.op == "placeholder"][-1]`). -/
def lastPhIdx : List Node → Option Nat
  | [] => Option.none
  | n :: rest =>
    match lastPhIdx rest with
    | some i => some (i + 1)
    | Option.none => if n.op = NodeOp.placeholder then some 0 else Option.none

/-- Insertion discipline of `create_graph_input`: a new placeholder node
goes immediately after the last existing placeholder
(`graph.inserting_after(placeholders[-1])`), or at the very front when
none exists (`graph.inserting_before(None)` positions at the start of
the node list). -/
def insertPlaceholder (g : List Node) (p : Node) : List Node :=
  match lastPhIdx g with
  | some i => g.take (i + 1) ++ p :: g.drop (i + 1)
  | Option.none => p :: g

/-- `create_graph_input(name)`: mint the placeholder name
`name ++ "_" ++ cnt`, insert the placeholder node after the last
placeholder (or at the front), and return the proxy reference.  The
ghost `phLog` records the base name in creation order. -/
def create_graph_input (s : TracerState) (name : String) : TracerState × String :=
  let pname := name ++ "_" ++ toString s.cnt
  let node : Node := { op := .placeholder, target := pname, base := name }
  ({ s with graph := insertPlaceholder s.graph node,
            cnt := s.cnt + 1,
            phLog := s.phLog ++ [name] }, pname)

/-- `wrap_local(name, value)`: wrap a concrete local binding into a
symbolic value, recording the guard and capture descriptor the source
attaches to each supported kind; any other kind aborts the whole trace
with the Unsupported signal. -/
def wrap_local (s : TracerState) (name : String) (value : PyObj) :
    Except Abort (TracerState × VT) :=
  match value with
  | .tensor =>
    let s1 := { s with graphargs := s.graphargs ++ [GraphArg.LocalArg name] }
    let (s2, pname) := create_graph_input s1 name
    .ok (s2, .TensorVariable pname .YES [⟨name, .LOCAL, .TYPE_MATCH⟩])
  | .nnmod cls allowed attrs =>
    let key := name ++ "_" ++ toString s.cnt
    .ok ({ s with cnt := s.cnt + 1,
                  nn_modules := s.nn_modules ++ [(key, PyObj.nnmod cls allowed attrs)] },
         .NNModuleVariable key .YES [⟨name, .LOCAL, .VALUE_MATCH⟩])
  | .vbool b =>
    .ok (s, .ConstantVariable (.bool b) .UNKNOWN [⟨name, .LOCAL, .VALUE_MATCH⟩])
  | .vnone =>
    .ok (s, .ConstantVariable .none .UNKNOWN [⟨name, .LOCAL, .VALUE_MATCH⟩])
  | v => unimplemented ("wrap_local: " ++ v.tyname)

/-- The dictionary comprehension of `InstructionTracer.__init__`:
wrap every name of `co_varnames` bound in `f_locals`, in `co_varnames`
order, inserting the results into `symbolic_locals` in that order. -/
def initLocals (s : TracerState) (f_locals : List (String × PyObj)) :
    List String → Except Abort TracerState
  | [] => .ok s
  | k :: rest =>
    match f_locals.lookup k with
    | Option.none => initLocals s f_locals rest
    | some v => do
      let (s1, vt) ← wrap_local s k v
      initLocals { s1 with symbolic_locals := s1.symbolic_locals ++ [(k, vt)] } f_locals rest

/-- `InstructionTracer.__init__`: empty graph, stack, registries and
guard set; then the locals are wrapped in `co_varnames` order. -/
def initTracer (instructions : List Instr) (f_locals f_globals : List (String × PyObj))
    (f_builtins : List String) (co_varnames co_names : List String)
    (co_stacksize : Nat) (uidName : String) : Except Abort TracerState :=
  let s : TracerState :=
    { graph := [], instructions := instructions, stack := [],
      symbolic_locals := [], f_globals := f_globals, f_builtins := f_builtins,
      instruction_pointer := 0, cnt := 0, gcnt := 0, graphargs := [],
      nn_modules := [], guards := ∅,
      co_varnames := co_varnames, co_names := co_names,
      co_stacksize := co_stacksize, uidName := uidName }
  initLocals s f_locals co_varnames

/-- `create_load_fast(name)`: assert the name is a local variable name
and emit a `LOAD_FAST` instruction for its slot. -/
def create_load_fast (s : TracerState) (name : String) : Except Abort Instr :=
  if name ∈ s.co_varnames then
    .ok { opname := "LOAD_FAST", argstr := name, argnum := s.co_varnames.indexOf name }
  else .error (.assertFail "name in self.code_options co_varnames")

/-- `create_load_global(name)`: assert the name is among the code's
global names and emit a `LOAD_GLOBAL` instruction for it. -/
def create_load_global (s : TracerState) (name : String) : Except Abort Instr :=
  if name ∈ s.co_names then
    .ok { opname := "LOAD_GLOBAL", argstr := name, argnum := s.co_names.indexOf name }
  else .error (.assertFail "name in self.code_options co_names")

/-- `arg.load(self)` on a captured-argument descriptor. -/
def GraphArg.load (s : TracerState) : GraphArg → Except Abort Instr
  | .LocalArg n => create_load_fast s n
  | .GlobalArg n => create_load_global s n

/-- `popn(n)` on the operand stack: pop `n` values and return them in
bottom-to-top order, together with the remaining stack; popping from an
exhausted stack raises `IndexError`. -/
def popn (stack : List VT) (n : Nat) : Except Abort (List VT × List VT) :=
  if n ≤ stack.length then .ok ((stack.take n).reverse, stack.drop n)
  else .error .indexError

/-- `get_submodule(keys)`: assert the key is nonempty, split it on dots,
look the first segment up in the flat `nn_modules` registry and resolve
the remaining segments by attribute access. -/
def get_submodule (nnm : List (String × PyObj)) (keys : String) : Except Abort PyObj :=
  if keys = "" then .error (.assertFail "keys")
  else
    match keys.splitOn "." with
    | [] => .error (.assertFail "keys")
    | k :: rest => do
      let first ← match nnm.lookup k with
        | some o => Except.ok o
        | Option.none => Except.error (Abort.keyError k)
      rest.foldlM
        (fun obj k2 =>
          match obj.getattr k2 with
          | some o => Except.ok o
          | Option.none => Except.error (Abort.attrError k2))
        first

/-- True when all popped operands are `TensorVariable`s, the condition
under which `stack_op`'s combined class is a `TensorVariable` subclass. -/
def allTensors : List VT → Bool
  | [] => true
  | .TensorVariable _ _ _ :: rest => allTensors rest
  | _ => false

/-- Modelled from the spec: name of `VariableTracker.combine_type` of
the operand list, used only in the `stack_op` abort message — the common
class name when all operands share one, the base class name otherwise. -/
def combineTypeName (vs : List VT) : String :=
  match vs with
  | [] => "VariableTracker"
  | v :: rest =>
    if rest.all (fun w => w.tyname == v.tyname) then v.tyname else "VariableTracker"

/-- Append a new call-type node to the end of the graph and push a fresh
`TensorVariable` backed by it (the shared tail of `stack_op` and the
three `call_function` branches; `create_proxy` with no insertion context
appends at the end of the node list). -/
def pushProxyCall (s : TracerState) (nop : NodeOp) (target : String)
    (pargs : List String) (options : VarOptions) : TracerState :=
  let nodeName := target ++ "_" ++ toString s.gcnt
  { s with stack := VT.TensorVariable nodeName options.state options.guards :: s.stack,
           graph := s.graph ++ [{ op := nop, target := target, args := pargs }],
           gcnt := s.gcnt + 1 }

/-- The `stack_op` decorator expanded: pop the operator's arity, require
the combined operand class to be a tensor class (abort naming the class
otherwise), emit a `call_function` node applying the operator, and push
the resulting tensor with propagated state and guards. -/
def stack_op (s : TracerState) (opdesc : String) (nargs : Nat) :
    Except Abort TracerState := do
  let (inputs, rest) ← popn s.stack nargs
  let options ← propagate inputs
  if allTensors inputs then do
    let proxies ← inputs.mapM VT.asProxy
    .ok (pushProxyCall { s with stack := rest } .call_function opdesc proxies options)
  else unimplemented ("stack_op " ++ combineTypeName inputs)

/-- Identity string of an allowed function/module object, used as the
`call_function` node target. -/
def PyObj.ident : PyObj → String
  | .allowedFM i _ => i
  | o => o.tyname

/-- `call_function(fn, args, kwargs)`: the uniform call dispatcher.
An allowed function/module emits a `call_function` node; a deferred
attribute emits a `call_method` node with the receiver prepended to the
arguments; a sub-component reference is resolved in the registry, its
class checked against the allow-list, and a `call_module` node emitted
(keyword arguments are not forwarded on that path, mirroring the
source); anything else aborts. -/
def call_function (s : TracerState) (fn : VT) (args : List VT)
    (kwargs : List (PyVal × VT)) : Except Abort TracerState :=
  match fn with
  | .AllowedFunctionOrModuleVariable value _ _ => do
    let options ← propagate (fn :: (args ++ kwargs.map Prod.snd))
    let proxy_args ← args.mapM VT.asProxy
    let _proxy_kwargs ← kwargs.mapM (fun kv => VT.asProxy kv.2)
    .ok (pushProxyCall s .call_function value.ident proxy_args options)
  | .GetAttrVariable obj name _ _ => do
    let args2 := obj :: args
    let options ← propagate (fn :: (args2 ++ kwargs.map Prod.snd))
    let proxy_args ← args2.mapM VT.asProxy
    let _proxy_kwargs ← kwargs.mapM (fun kv => VT.asProxy kv.2)
    .ok (pushProxyCall s .call_method name proxy_args options)
  | .NNModuleVariable key _ _ => do
    let mod ← get_submodule s.nn_modules key
    if mod.isAllowedClass then do
      let options ← propagate (fn :: args)
      let proxy_args ← args.mapM VT.asProxy
      .ok (pushProxyCall s .call_module key proxy_args options)
    else unimplemented "call custom module"
  | _ => unimplemented "call_function"

/-- `LOAD_FAST`: push the symbolic value bound to the local name
(`KeyError` when the name was never bound). -/
def op_LOAD_FAST (s : TracerState) (inst : Instr) : Except Abort TracerState :=
  match s.symbolic_locals.lookup inst.argstr with
  | some v => .ok { s with stack := v :: s.stack }
  | Option.none => .error (.keyError inst.argstr)

/-- Insertion-order-preserving update of the symbolic locals table
(Python dict assignment). -/
def assocSet (l : List (String × VT)) (k : String) (v : VT) : List (String × VT) :=
  match l with
  | [] => [(k, v)]
  | (k2, v2) :: rest => if k2 = k then (k2, v) :: rest else (k2, v2) :: assocSet rest k v

/-- `STORE_FAST`: pop the top of stack into the local binding table. -/
def op_STORE_FAST (s : TracerState) (inst : Instr) : Except Abort TracerState :=
  match s.stack with
  | v :: rest =>
    .ok { s with stack := rest, symbolic_locals := assocSet s.symbolic_locals inst.argstr v }
  | [] => .error .indexError

/-- `LOAD_CONST`: push the literal as a constant with unknown support
state and no guards. -/
def op_LOAD_CONST (s : TracerState) (inst : Instr) : Except Abort TracerState :=
  .ok { s with stack := VT.ConstantVariable inst.argconst .UNKNOWN [] :: s.stack }

/-- `load_builtin`: assert the name is a builtin, then abort with the
Unsupported signal naming it (no builtin is traceable). -/
def load_builtin (s : TracerState) (inst : Instr) : Except Abort TracerState :=
  if inst.argstr ∈ s.f_builtins then unimplemented ("load_builtin: " ++ inst.argstr)
  else .error (.assertFail "inst.argval in self.f_builtins")

/-- `LOAD_GLOBAL`: an allowed callable/module is pushed with a
FUNCTION_MATCH guard of Global origin; a global tensor hits the
author's `assert False` (`"TODO(jansel): need to debug a crash here"`) —
the capture-as-global-argument code after it is unreachable; anything
else aborts with the Unsupported signal; a missing name falls back to
`load_builtin`. -/
def op_LOAD_GLOBAL (s : TracerState) (inst : Instr) : Except Abort TracerState :=
  match s.f_globals.lookup inst.argstr with
  | Option.none => load_builtin s inst
  | some value =>
    if value.isAllowedObj then
      let v := VT.AllowedFunctionOrModuleVariable value .YES [⟨inst.argstr, .GLOBAL, .FUNCTION_MATCH⟩]
      .ok { s with stack := v :: s.stack }
    else
      match value with
      | .tensor => .error (.assertFail "TODO(jansel): need to debug a crash here")
      | _ => unimplemented "LOAD_GLOBAL"

/-- `jump(inst)`: redirect the instruction pointer to the target's index
(`self.indexof[id(inst.target)]`; a target that is not an instruction of
the current sequence raises `KeyError`). -/
def jump (s : TracerState) (inst : Instr) : Except Abort TracerState :=
  match inst.target with
  | some t =>
    if t < s.instructions.length then .ok { s with instruction_pointer := t }
    else .error (.keyError "target")
  | Option.none => .error (.keyError "None")

/-- `POP_JUMP_IF_FALSE`: pop the condition, merge its guards into the
trace's accumulated guard set, then jump when it is a falsy constant,
fall through when it is a truthy constant, and abort on any non-constant
condition.  The ghost `branchLog` records the popped guard set. -/
def op_POP_JUMP_IF_FALSE (s : TracerState) (inst : Instr) : Except Abort TracerState := do
  match s.stack with
  | [] => .error .indexError
  | value :: rest =>
    let gs ← value.guards
    let s1 := { s with stack := rest, guards := s.guards ∪ gs.toFinset,
                       branchLog := s.branchLog ++ [gs.toFinset] }
    match value with
    | .ConstantVariable v _ _ => if v.truthy then .ok s1 else jump s1 inst
    | _ => unimplemented ("POP_JUMP_IF_FALSE " ++ value.tyname)

/-- `CALL_FUNCTION`: pop the positional arguments and the callee, then
dispatch with empty keyword arguments. -/
def op_CALL_FUNCTION (s : TracerState) (inst : Instr) : Except Abort TracerState := do
  let (args, rest1) ← popn s.stack inst.argnum
  match rest1 with
  | fn :: rest => call_function { s with stack := rest } fn args []
  | [] => .error .indexError

/-- Membership in the source's `ListVariable` isinstance check.
Modelled from the spec: the concrete class hierarchy lives in the
missing `variable_tracker.py`; the spec's single `Container` variant
covers list, tuple and slice, so all three are accepted here. -/
def VT.isListVariable : VT → Bool
  | .ListVariable _ _ _ => true
  | .TupleVariable _ _ _ => true
  | .SliceVariable _ _ _ => true
  | _ => false

/-- Item sequence of a container value. -/
def VT.listItems : VT → List VT
  | .ListVariable xs _ _ => xs
  | .TupleVariable xs _ _ => xs
  | .SliceVariable xs _ _ => xs
  | _ => []

/-- `CALL_FUNCTION_EX`: unpack the positional container (and keyword
mapping when flag 1 is set), assert their kinds, and dispatch. -/
def op_CALL_FUNCTION_EX (s : TracerState) (inst : Instr) : Except Abort TracerState := do
  let (kwargsvars, argsvars, rest1) ←
    (if inst.argnum = 0 then
      match s.stack with
      | a :: r => Except.ok (VT.ConstDictVariable [] .UNKNOWN [], a, r)
      | _ => Except.error Abort.indexError
    else if inst.argnum = 1 then
      match s.stack with
      | kw :: a :: r => Except.ok (kw, a, r)
      | _ => Except.error Abort.indexError
    else unimplemented "CALL_FUNCTION_EX" :
      Except Abort (VT × VT × List VT))
  match rest1 with
  | fn :: rest =>
    if argsvars.isListVariable then
      match kwargsvars with
      | .ConstDictVariable kitems _ _ =>
        call_function { s with stack := rest } fn argsvars.listItems kitems
      | _ => .error (.assertFail "isinstance(kwargsvars, ConstDictVariable)")
    else .error (.assertFail "isinstance(argsvars, ListVariable)")
  | [] => .error .indexError

/-- Python `l[:-k]`.  Note `-0 == 0`, so for `k = 0` this is `l[:0]`,
the empty list — the degenerate split `CALL_FUNCTION_KW` performs when
the keyword-name tuple is empty. -/
def pySliceUptoNeg (l : List α) (k : Nat) : List α :=
  if k = 0 then [] else l.take (l.length - k)

/-- Python `l[-k:]`.  Note `-0 == 0`, so for `k = 0` this is `l[0:]`,
the whole list. -/
def pySliceFromNeg (l : List α) (k : Nat) : List α :=
  if k = 0 then l else l.drop (l.length - k)

/-- Python dict insertion: replace the value of an existing equal key in
place, append a new key at the end. -/
def dictInsert (l : List (PyVal × VT)) (k : PyVal) (v : VT) : List (PyVal × VT) :=
  match l with
  | [] => [(k, v)]
  | (k2, v2) :: rest =>
    if PyVal.beq k2 k then (k2, v) :: rest else (k2, v2) :: dictInsert rest k v

/-- Python `dict(zip(ks, vs))`: truncating zip, later duplicates win. -/
def dictOfZip (ks : List PyVal) (vs : List VT) : List (PyVal × VT) :=
  (List.zip ks vs).foldl (fun acc kv => dictInsert acc kv.1 kv.2) []

/-- `CALL_FUNCTION_KW`: pop the keyword-name constant, the arguments and
the callee; split the arguments at `-len(argnames)` into positional and
keyword values (for an empty name tuple the Python slice semantics make
the positional part `args[:0] = []` and hand all values to the
degenerate empty zip); assert the keyword dict is full-sized; dispatch. -/
def op_CALL_FUNCTION_KW (s : TracerState) (inst : Instr) : Except Abort TracerState := do
  match s.stack with
  | [] => .error .indexError
  | argnamesVar :: stack1 =>
    let (args, rest1) ← popn stack1 inst.argnum
    match rest1 with
    | fn :: rest =>
      match argnamesVar with
      | .ConstantVariable av _ _ =>
        match av with
        | .tup names =>
          let posargs := pySliceUptoNeg args names.length
          let kwvals := pySliceFromNeg args names.length
          let kwargs := dictOfZip names kwvals
          if kwargs.length = names.length then
            call_function { s with stack := rest } fn posargs kwargs
          else .error (.assertFail "len(kwargs) == len(argnames)")
        | _ => .error (.typeError "object of this type has no len")
      | _ => .error (.assertFail "isinstance(argnames, ConstantVariable)")
    | [] => .error .indexError

/-- `LOAD_ATTR`: resolve sub-component attributes through the registry
(tensor attribute → `get_attr` node, sub-component → new reference,
anything else aborts); defer tensor attributes to a `GetAttrVariable`;
re-wrap attributes of allowed functions/modules; abort on other bases. -/
def op_LOAD_ATTR (s : TracerState) (inst : Instr) : Except Abort TracerState := do
  match s.stack with
  | [] => .error .indexError
  | obj :: rest =>
    let options ← propagate [obj]
    match obj with
    | .NNModuleVariable key _ _ =>
      let fullkey := key ++ "." ++ inst.argstr
      let subobj ← get_submodule s.nn_modules fullkey
      match subobj with
      | .tensor => .ok (pushProxyCall { s with stack := rest } .get_attr fullkey [] options)
      | .nnmod _ _ _ =>
        .ok { s with stack := VT.NNModuleVariable fullkey options.state options.guards :: rest }
      | v => unimplemented ("nn.Module attr " ++ v.tyname)
    | .TensorVariable _ _ _ =>
      .ok { s with stack := VT.GetAttrVariable obj inst.argstr options.state options.guards :: rest }
    | .AllowedFunctionOrModuleVariable value _ _ =>
      match value.getattr inst.argstr with
      | some v2 =>
        .ok { s with stack :=
          VT.AllowedFunctionOrModuleVariable v2 options.state options.guards :: rest }
      | Option.none => .error (.attrError inst.argstr)
    | _ => unimplemented "LOAD_ATTR"

/-- `LOAD_METHOD`: exactly `LOAD_ATTR` followed by pushing a bare
Python `None`. -/
def op_LOAD_METHOD (s : TracerState) (inst : Instr) : Except Abort TracerState := do
  let s1 ← op_LOAD_ATTR s inst
  .ok { s1 with stack := VT.rawNone :: s1.stack }

/-- `CALL_METHOD`: pop the arguments, assert the `LOAD_METHOD` `None`
marker, pop the callee and dispatch. -/
def op_CALL_METHOD (s : TracerState) (inst : Instr) : Except Abort TracerState := do
  let (args, rest1) ← popn s.stack inst.argnum
  match rest1 with
  | dummy :: fn :: rest =>
    match dummy with
    | .rawNone => call_function { s with stack := rest } fn args []
    | _ => .error (.assertFail "dummy is None")
  | _ => .error .indexError

/-- `BUILD_TUPLE`: pop the declared number of items and push a tuple
container with propagated state and guards. -/
def op_BUILD_TUPLE (s : TracerState) (inst : Instr) : Except Abort TracerState := do
  let (items, rest) ← popn s.stack inst.argnum
  let options ← propagate items
  .ok { s with stack := VT.TupleVariable items options.state options.guards :: rest }

/-- `BUILD_SLICE`: as `BUILD_TUPLE`, pushing a slice container. -/
def op_BUILD_SLICE (s : TracerState) (inst : Instr) : Except Abort TracerState := do
  let (items, rest) ← popn s.stack inst.argnum
  let options ← propagate items
  .ok { s with stack := VT.SliceVariable items options.state options.guards :: rest }

/-- `BUILD_LIST`: as `BUILD_TUPLE`, pushing a list container. -/
def op_BUILD_LIST (s : TracerState) (inst : Instr) : Except Abort TracerState := do
  let (items, rest) ← popn s.stack inst.argnum
  let options ← propagate items
  .ok { s with stack := VT.ListVariable items options.state options.guards :: rest }

/-- Pair up the interleaved key/value item list of `BUILD_MAP`,
asserting every key is a literal constant. -/
def pairKeyVals : List VT → Except Abort (List (PyVal × VT))
  | [] => .ok []
  | k :: v :: rest =>
    (match k with
    | .ConstantVariable kv _ _ => do
      let tail ← pairKeyVals rest
      .ok ((kv, v) :: tail)
    | _ => .error (.assertFail "isinstance(k, ConstantVariable)"))
  | _ => .error .indexError

/-- `BUILD_MAP`: pop `2n` items, build the constant-keyed mapping and
assert no key collapsed (`len(result) == len(items) / 2`). -/
def op_BUILD_MAP (s : TracerState) (inst : Instr) : Except Abort TracerState := do
  let (items, rest) ← popn s.stack (inst.argnum * 2)
  let options ← propagate items
  let pairs ← pairKeyVals items
  let result := pairs.foldl (fun acc kv => dictInsert acc kv.1 kv.2) []
  if result.length = inst.argnum then
    .ok { s with stack := VT.ConstDictVariable result options.state options.guards :: rest }
  else .error (.assertFail "len(result) == len(items) / 2")

/-- `BUILD_CONST_KEY_MAP`: pop the key tuple constant and the values,
assert the arities match, and push the mapping. -/
def op_BUILD_CONST_KEY_MAP (s : TracerState) (inst : Instr) : Except Abort TracerState := do
  match s.stack with
  | [] => .error .indexError
  | keys :: stack1 =>
    let (values, rest) ← popn stack1 inst.argnum
    let options ← propagate (keys :: values)
    match keys with
    | .ConstantVariable kv _ _ =>
      match kv with
      | .tup ks =>
        if ks.length = values.length then
          .ok { s with stack :=
            VT.ConstDictVariable (dictOfZip ks values) options.state options.guards :: rest }
        else .error (.assertFail "len(keys) == len(values)")
      | _ => .error (.assertFail "isinstance(keys, tuple)")
    | _ => .error (.assertFail "isinstance(keys, ConstantVariable)")

/-- `UNPACK_SEQUENCE`: only a container passes the isinstance check; its
item count is asserted equal to the declared arity (`assert`, not the
Unsupported signal), and the items are pushed in reverse order, leaving
the first item on top; any other source aborts with Unsupported. -/
def op_UNPACK_SEQUENCE (s : TracerState) (inst : Instr) : Except Abort TracerState :=
  match s.stack with
  | [] => .error .indexError
  | seq :: rest =>
    if seq.isListVariable then
      if seq.listItems.length = inst.argnum then
        .ok { s with stack := seq.listItems ++ rest }
      else .error (.assertFail "len(seq.items) == inst.argval")
    else unimplemented ("UNPACK_SEQUENCE " ++ seq.tyname)

/-- `RETURN_VALUE`: require the returned value to be a fully-supported
tensor (abort otherwise); append the single `output` node, merge the
returned value's guards into the final guard set, bind the compiled
callable under the fresh global name, append that name to `co_names`,
set the stack-size hint to the captured-argument count plus one, and
replace the whole instruction stream with load-callable / load-each-
captured-argument / call / return.  The external graph compilation
(`GraphModule`, `FakeRootModule`) produces the callable object and is
treated as a black-box collaborator. -/
def op_RETURN_VALUE (s : TracerState) (_ : Instr) : Except Abort TracerState := do
  match s.stack with
  | [] => .error .indexError
  | rv :: rest =>
    let st ← rv.state
    if st = TracingSupported.YES then
      match rv with
      | .TensorVariable proxy _ gs =>
        let s1 : TracerState :=
          { s with stack := rest,
                   graph := s.graph ++ [{ op := .output, target := "output", args := [proxy] }],
                   guards := s.guards ∪ gs.toFinset,
                   retGuards := some gs.toFinset,
                   f_globals := s.f_globals ++ [(s.uidName, PyObj.other "method")],
                   co_names := s.co_names ++ [s.uidName],
                   co_stacksize := s.graphargs.length + 1 }
        let lg ← create_load_global s1 s.uidName
        let loads ← s.graphargs.mapM (GraphArg.load s1)
        .ok { s1 with instructions :=
                lg :: loads ++ [{ opname := "CALL_FUNCTION", argnum := s.graphargs.length },
                                { opname := "RETURN_VALUE" }] }
      | v => unimplemented ("RETURN_VALUE " ++ v.tyname)
    else unimplemented "not traceable"

/-- `NOP`. -/
def op_NOP (s : TracerState) (_ : Instr) : Except Abort TracerState := .ok s

/-- `POP_TOP`: discard the top of stack. -/
def op_POP_TOP (s : TracerState) (_ : Instr) : Except Abort TracerState :=
  match s.stack with
  | _ :: rest => .ok { s with stack := rest }
  | [] => .error .indexError

/-- `ROT_TWO`: swap the two top stack entries. -/
def op_ROT_TWO (s : TracerState) (_ : Instr) : Except Abort TracerState :=
  match s.stack with
  | a :: b :: rest => .ok { s with stack := b :: a :: rest }
  | _ => .error .indexError

/-- `ROT_THREE`: lift the second and third entries, moving the top to
third place. -/
def op_ROT_THREE (s : TracerState) (_ : Instr) : Except Abort TracerState :=
  match s.stack with
  | a :: b :: c :: rest => .ok { s with stack := b :: c :: a :: rest }
  | _ => .error .indexError

/-- `ROT_FOUR`: lift the second, third and fourth entries, moving the
top to fourth place. -/
def op_ROT_FOUR (s : TracerState) (_ : Instr) : Except Abort TracerState :=
  match s.stack with
  | a :: b :: c :: d :: rest => .ok { s with stack := b :: c :: d :: a :: rest }
  | _ => .error .indexError

/-- `DUP_TOP`: duplicate the top entry. -/
def op_DUP_TOP (s : TracerState) (_ : Instr) : Except Abort TracerState :=
  match s.stack with
  | a :: rest => .ok { s with stack := a :: a :: rest }
  | [] => .error .indexError

/-- `DUP_TOP_TWO`: duplicate the two top entries. -/
def op_DUP_TOP_TWO (s : TracerState) (_ : Instr) : Except Abort TracerState :=
  match s.stack with
  | a :: b :: rest => .ok { s with stack := a :: b :: a :: b :: rest }
  | _ => .error .indexError

/-- The dispatch table: the source looks a same-named handler method up
with `hasattr`/`getattr`; every handler name is an upper-case opcode
name and no opcode name collides with any other tracer attribute, so the
lookup is equivalent to this match; the fallback arm is
`unimplemented("missing: " + opname)`. -/
def dispatch (s : TracerState) (inst : Instr) : Except Abort TracerState :=
  match inst.opname with
  | "LOAD_FAST" => op_LOAD_FAST s inst
  | "STORE_FAST" => op_STORE_FAST s inst
  | "LOAD_CONST" => op_LOAD_CONST s inst
  | "LOAD_GLOBAL" => op_LOAD_GLOBAL s inst
  | "POP_JUMP_IF_FALSE" => op_POP_JUMP_IF_FALSE s inst
  | "CALL_FUNCTION" => op_CALL_FUNCTION s inst
  | "CALL_FUNCTION_EX" => op_CALL_FUNCTION_EX s inst
  | "CALL_FUNCTION_KW" => op_CALL_FUNCTION_KW s inst
  | "LOAD_METHOD" => op_LOAD_METHOD s inst
  | "CALL_METHOD" => op_CALL_METHOD s inst
  | "LOAD_ATTR" => op_LOAD_ATTR s inst
  | "BUILD_TUPLE" => op_BUILD_TUPLE s inst
  | "BUILD_SLICE" => op_BUILD_SLICE s inst
  | "BUILD_LIST" => op_BUILD_LIST s inst
  | "BUILD_MAP" => op_BUILD_MAP s inst
  | "BUILD_CONST_KEY_MAP" => op_BUILD_CONST_KEY_MAP s inst
  | "UNPACK_SEQUENCE" => op_UNPACK_SEQUENCE s inst
  | "RETURN_VALUE" => op_RETURN_VALUE s inst
  | "NOP" => op_NOP s inst
  | "POP_TOP" => op_POP_TOP s inst
  | "ROT_TWO" => op_ROT_TWO s inst
  | "ROT_THREE" => op_ROT_THREE s inst
  | "ROT_FOUR" => op_ROT_FOUR s inst
  | "DUP_TOP" => op_DUP_TOP s inst
  | "DUP_TOP_TWO" => op_DUP_TOP_TWO s inst
  | "UNARY_POSITIVE" => stack_op s "pos" 1
  | "UNARY_NEGATIVE" => stack_op s "neg" 1
  | "UNARY_NOT" => stack_op s "not" 1
  | "UNARY_INVERT" => stack_op s "invert" 1
  | "BINARY_POWER" => stack_op s "pow" 2
  | "BINARY_MULTIPLY" => stack_op s "mul" 2
  | "BINARY_MATRIX_MULTIPLY" => stack_op s "matmul" 2
  | "BINARY_FLOOR_DIVIDE" => stack_op s "floordiv" 2
  | "BINARY_TRUE_DIVIDE" => stack_op s "truediv" 2
  | "BINARY_MODULO" => stack_op s "mod" 2
  | "BINARY_ADD" => stack_op s "add" 2
  | "BINARY_SUBTRACT" => stack_op s "sub" 2
  | "BINARY_SUBSCR" => stack_op s "getitem" 2
  | "BINARY_LSHIFT" => stack_op s "lshift" 2
  | "BINARY_RSHIFT" => stack_op s "rshift" 2
  | "BINARY_AND" => stack_op s "and" 2
  | "BINARY_XOR" => stack_op s "xor" 2
  | "BINARY_OR" => stack_op s "or" 2
  | op => unimplemented ("missing: " ++ op)

/-- True exactly on the opcode names that have a registered handler. -/
def handledOp (op : String) : Bool :=
  match op with
  | "LOAD_FAST" | "STORE_FAST" | "LOAD_CONST" | "LOAD_GLOBAL"
  | "POP_JUMP_IF_FALSE" | "CALL_FUNCTION" | "CALL_FUNCTION_EX"
  | "CALL_FUNCTION_KW" | "LOAD_METHOD" | "CALL_METHOD" | "LOAD_ATTR"
  | "BUILD_TUPLE" | "BUILD_SLICE" | "BUILD_LIST" | "BUILD_MAP"
  | "BUILD_CONST_KEY_MAP" | "UNPACK_SEQUENCE" | "RETURN_VALUE" | "NOP"
  | "POP_TOP" | "ROT_TWO" | "ROT_THREE" | "ROT_FOUR" | "DUP_TOP"
  | "DUP_TOP_TWO" | "UNARY_POSITIVE" | "UNARY_NEGATIVE" | "UNARY_NOT"
  | "UNARY_INVERT" | "BINARY_POWER" | "BINARY_MULTIPLY"
  | "BINARY_MATRIX_MULTIPLY" | "BINARY_FLOOR_DIVIDE" | "BINARY_TRUE_DIVIDE"
  | "BINARY_MODULO" | "BINARY_ADD" | "BINARY_SUBTRACT" | "BINARY_SUBSCR"
  | "BINARY_LSHIFT" | "BINARY_RSHIFT" | "BINARY_AND" | "BINARY_XOR"
  | "BINARY_OR" => true
  | _ => false

/-- `step()`: fetch the instruction at the pointer (running past the end
raises `IndexError`), advance the pointer, dispatch by opcode, and
report whether the loop continues (false only after `RETURN_VALUE`). -/
def step (s : TracerState) : Except Abort (TracerState × Bool) := do
  match s.instructions[s.instruction_pointer]? with
  | Option.none => .error .indexError
  | some inst => do
    let s2 ← dispatch { s with instruction_pointer := s.instruction_pointer + 1 } inst
    .ok (s2, inst.opname != "RETURN_VALUE")

/-- `run()`: loop `step()` until it reports completion or an abort
propagates.  The Python loop is unbounded (a backward jump on a falsy
constant loops forever), so the embedding is fuel-indexed: `none` means
the loop has not finished within the given fuel. -/
def run : Nat → TracerState → Option (Except Abort TracerState)
  | 0, _ => Option.none
  | fuel + 1, s =>
    match step s with
    | .error e => some (.error e)
    | .ok (s2, cont) => if cont then run fuel s2 else some (.ok s2)

/-- The structural metadata of a code object that the tracer reads and
the rewriter may mutate, plus the decoded instruction stream (the
low-level encoder/decoder `transform_code_object` round-trips through
is an external collaborator, so code is embedded in decoded form). -/
structure Code where
  instrs : List Instr
  co_varnames : List String
  co_names : List String
  co_stacksize : Nat
  co_filename : String

/-- A paused execution frame as offered to the orchestrator. -/
structure Frame where
  f_code : Code
  f_locals : List (String × PyObj)
  f_globals : List (String × PyObj)
  f_builtins : List String

/-- Modelled from the spec: `guards.GuardedCode` — a code object plus
its guard set; constructed without guards it carries the empty set. -/
structure GuardedCode where
  code : Code
  guards : Finset Guard := ∅

/-- Construct the tracer for a frame and drive it: the outcome is an
abort, a final tracer state, or `none` when the loop has not finished
within the fuel. -/
def traceOutcome (uid : String) (fuel : Nat) (frame : Frame) :
    Option (Except Abort TracerState) :=
  match initTracer frame.f_code.instrs frame.f_locals frame.f_globals frame.f_builtins
      frame.f_code.co_varnames frame.f_code.co_names frame.f_code.co_stacksize uid with
  | .error e => some (.error e)
  | .ok s0 => run fuel s0

/-- `convert_frame_assert(frame)`: skip compiler-generated code (files
named `<eval_with_key>…`) returning the code unmodified with empty
guards; otherwise decode, trace, and package the mutated instruction
stream and metadata with the tracer's guard set.  Any abort propagates
to the caller. -/
def convert_frame_assert (uid : String) (fuel : Nat) (frame : Frame) :
    Option (Except Abort GuardedCode) :=
  if frame.f_code.co_filename.startsWith "<eval_with_key>" then
    some (.ok { code := frame.f_code })
  else
    match traceOutcome uid fuel frame with
    | Option.none => Option.none
    | some (.error e) => some (.error e)
    | some (.ok s) =>
      let newCode : Code :=
        { frame.f_code with instrs := s.instructions, co_names := s.co_names, co_stacksize := s.co_stacksize }
      some (.ok { code := newCode, guards := s.guards })

/-- `convert_frame(frame)`: the failure boundary.  The explicit
Unsupported signal is swallowed silently; every other exception is
logged; both degrade to the frame's original code object with an empty
guard set.  `none` still means the underlying loop has not finished
within the fuel. -/
def convert_frame (uid : String) (fuel : Nat) (frame : Frame) : Option GuardedCode :=
  match convert_frame_assert uid fuel frame with
  | Option.none => Option.none
  | some (.ok gc) => some gc
  | some (.error _) => some { code := frame.f_code }

/-- The base names of the placeholder nodes, in graph order. -/
def phBases (g : List Node) : List String :=
  (g.filter (fun n => decide (n.op = NodeOp.placeholder))).map Node.base

/-- The binding names of the captured-argument descriptors, in capture
order. -/
def argNames (l : List GraphArg) : List String := l.map GraphArg.name

/-- Union of a list of guard sets. -/
def unionList (l : List (Finset Guard)) : Finset Guard :=
  l.foldr (fun a b => a ∪ b) ∅

/-- Structural well-formedness of the graph/argument bookkeeping: the
placeholders form a contiguous prefix of the graph, and their base
names, in graph order, coincide with the captured-argument names in
capture order and with the ghost creation log. -/
def GraphOK (s : TracerState) : Prop :=
  ∃ ps rest, s.graph = ps ++ rest ∧ (∀ n ∈ ps, n.op = NodeOp.placeholder) ∧
    (∀ n ∈ rest, n.op ≠ NodeOp.placeholder) ∧
    ps.map Node.base = argNames s.graphargs ∧ ps.map Node.base = s.phLog

/-- Forward-jump discipline: every jump target index lies strictly
after the jumping instruction. -/
def fwdOK (s : TracerState) : Prop :=
  ∀ (i : Nat) (inst : Instr) (t : Nat),
    s.instructions[i]? = some inst → inst.target = some t → i < t

/-- Decidable forward-jump check, indexed from `i`. -/
def fwdFrom : Nat → List Instr → Bool
  | _, [] => true
  | i, inst :: rest =>
    (match inst.target with
     | some t => decide (i < t)
     | Option.none => true) && fwdFrom (i + 1) rest

/-- Fields of the tracer state that an ordinary (non-jumping,
non-returning) opcode handler leaves untouched, together with the two
graph-evolution facts every handler obeys: the graph either stays or
grows by one non-placeholder node at the end. -/
structure Pres (s s' : TracerState) : Prop where
  instrs : s'.instructions = s.instructions
  ip : s'.instruction_pointer = s.instruction_pointer
  names : s'.co_names = s.co_names
  stacksize : s'.co_stacksize = s.co_stacksize
  uid : s'.uidName = s.uidName
  gargs : s'.graphargs = s.graphargs
  phL : s'.phLog = s.phLog
  grds : s'.guards = s.guards
  brL : s'.branchLog = s.branchLog
  retG : s'.retGuards = s.retGuards
  graphExt : ∃ ns, (∀ n ∈ ns, n.op ≠ NodeOp.placeholder) ∧ s'.graph = s.graph ++ ns

/-- Facts about a continuing step (any opcode but `RETURN_VALUE`): the
instruction stream and code metadata are untouched, the guard set
changes only by merging one branch guard set also recorded in the ghost
log, and, when all jumps are forward, the instruction pointer strictly
increases. -/
def ContFacts (s s' : TracerState) : Prop :=
  s'.instructions = s.instructions ∧ s'.co_names = s.co_names ∧
  s'.co_stacksize = s.co_stacksize ∧ s'.retGuards = s.retGuards ∧
  ((s'.guards = s.guards ∧ s'.branchLog = s.branchLog) ∨
   (∃ g, s'.guards = s.guards ∪ g ∧ s'.branchLog = s.branchLog ++ [g])) ∧
  (fwdOK s → s.instruction_pointer < s'.instruction_pointer)

/-- Facts about the final (returning) step, reusing the shape of
`op_RETURN_VALUE_ok`. -/
def RetFacts (s s' : TracerState) : Prop :=
  ∃ g glob loads,
    s'.retGuards = some g ∧ s'.guards = s.guards ∪ g ∧
    s'.branchLog = s.branchLog ∧
    s'.co_names = s.co_names ++ [s.uidName] ∧
    s'.co_stacksize = s.graphargs.length + 1 ∧
    glob.opname = "LOAD_GLOBAL" ∧ glob.argstr = s.uidName ∧
    loads.map Instr.argstr = argNames s.graphargs ∧
    s'.instructions = glob :: loads ++
      [{ opname := "CALL_FUNCTION", argnum := s.graphargs.length },
       { opname := "RETURN_VALUE" }]

/-- The run invariant threaded through every continuing step of a
trace: the graph bookkeeping stays well-formed, the metadata is
untouched, the accumulated guard set is exactly the union of the
branch-popped guard sets so far, and every branch-popped guard set is
contained in the accumulated set. -/
def RunInv (uid : String) (names0 : List String) (s : TracerState) : Prop :=
  GraphOK s ∧ s.uidName = uid ∧ s.co_names = names0 ∧
  s.guards = unionList s.branchLog ∧ s.retGuards = Option.none ∧
  (∀ gs ∈ s.branchLog, gs ⊆ s.guards)


/-- Example frame: locals `x`, `y` bound to tensors, body `return x + y`,
with an original stack-size hint of 5. -/
def frameAdd : Frame :=
  { f_code := { instrs := [ { opname := "LOAD_FAST", argstr := "x" },
                            { opname := "LOAD_FAST", argstr := "y" },
                            { opname := "BINARY_ADD" },
                            { opname := "RETURN_VALUE" } ],
                co_varnames := ["x", "y"], co_names := [], co_stacksize := 5,
                co_filename := "example.py" },
    f_locals := [("x", PyObj.tensor), ("y", PyObj.tensor)],
    f_globals := [], f_builtins := [] }

/-- Example frame: a boolean local `flag` branched on, a tensor local
`x` returned on both paths. -/
def frameBranch : Frame :=
  { f_code := { instrs := [ { opname := "LOAD_FAST", argstr := "flag" },
                            { opname := "POP_JUMP_IF_FALSE", target := some 4 },
                            { opname := "LOAD_FAST", argstr := "x" },
                            { opname := "RETURN_VALUE" },
                            { opname := "LOAD_FAST", argstr := "x" },
                            { opname := "RETURN_VALUE" } ],
                co_varnames := ["flag", "x"], co_names := [], co_stacksize := 2,
                co_filename := "example.py" },
    f_locals := [("flag", PyObj.vbool true), ("x", PyObj.tensor)],
    f_globals := [], f_builtins := [] }

/-- Example frame: a local bound to a plain string, which the tracer
cannot wrap. -/
def frameStr : Frame :=
  { f_code := { instrs := [ { opname := "LOAD_FAST", argstr := "z" },
                            { opname := "RETURN_VALUE" } ],
                co_varnames := ["z"], co_names := [], co_stacksize := 2,
                co_filename := "example.py" },
    f_locals := [("z", PyObj.other "str")], f_globals := [], f_builtins := [] }

/-- Example frame whose instruction stream contains an instruction with
no registered handler placed after the return, where stepping never
reaches it. -/
def frameBogusAfterRet : Frame :=
  { f_code := { instrs := [ { opname := "LOAD_FAST", argstr := "x" },
                            { opname := "RETURN_VALUE" },
                            { opname := "BOGUS_OP" } ],
                co_varnames := ["x"], co_names := [], co_stacksize := 3,
                co_filename := "example.py" },
    f_locals := [("x", PyObj.tensor)], f_globals := [], f_builtins := [] }

/-- Example frame consisting of a single unhandled opcode. -/
def frameMissingOnly : Frame :=
  { f_code := { instrs := [ { opname := "BOGUS_OP" } ],
                co_varnames := [], co_names := [], co_stacksize := 1,
                co_filename := "example.py" },
    f_locals := [], f_globals := [], f_builtins := [] }

/-- A minimal tracer state template for handler-level examples. -/
def baseState (instrs : List Instr) (stack : List VT) : TracerState :=
  { graph := [], instructions := instrs, stack := stack, symbolic_locals := [],
    f_globals := [], f_builtins := [], instruction_pointer := 0, cnt := 0, gcnt := 0,
    graphargs := [], nn_modules := [], guards := ∅, co_varnames := [], co_names := [],
    co_stacksize := 0, uidName := "fn0" }

/-- State about to step onto an unhandled opcode. -/
def stMissing : TracerState := baseState [ { opname := "BOGUS_OP" } ] []

/-- State about to unpack a 3-item list container into 2 targets. -/
def stUnpackMismatch : TracerState :=
  baseState [ { opname := "UNPACK_SEQUENCE", argnum := 2 } ]
    [VT.ListVariable [VT.ConstantVariable (.int 1) .UNKNOWN [],
                      VT.ConstantVariable (.int 2) .UNKNOWN [],
                      VT.ConstantVariable (.int 3) .UNKNOWN []] .UNKNOWN []]

/-- State about to unpack a 2-item list container into 2 targets. -/
def stUnpackMatch : TracerState :=
  baseState [ { opname := "UNPACK_SEQUENCE", argnum := 2 } ]
    [VT.ListVariable [VT.ConstantVariable (.int 1) .UNKNOWN [],
                      VT.ConstantVariable (.int 2) .UNKNOWN []] .UNKNOWN []]

/-- State about to unpack a non-container constant. -/
def stUnpackConst : TracerState :=
  baseState [ { opname := "UNPACK_SEQUENCE", argnum := 1 } ]
    [VT.ConstantVariable (.int 1) .UNKNOWN []]

/-- State about to load a global name bound to a tensor. -/
def stGlobalTensor : TracerState :=
  { baseState [ { opname := "LOAD_GLOBAL", argstr := "g" } ] [] with
    f_globals := [("g", PyObj.tensor)] }

/-- State about to execute `CALL_FUNCTION_KW` with two positional
arguments on the stack and an empty keyword-name tuple. -/
def stKwEmpty : TracerState :=
  baseState [ { opname := "CALL_FUNCTION_KW", argnum := 2 } ]
    [VT.ConstantVariable (.tup []) .UNKNOWN [],
     VT.ConstantVariable (.int 7) .UNKNOWN [],
     VT.ConstantVariable (.int 8) .UNKNOWN [],
     VT.AllowedFunctionOrModuleVariable (PyObj.allowedFM "torch.rand" []) .YES []]

/-- State about to branch on a truthy boolean constant carrying a
guard. -/
def stBranchTrue : TracerState :=
  baseState [ { opname := "POP_JUMP_IF_FALSE", target := some 3 },
              { opname := "NOP" }, { opname := "NOP" }, { opname := "NOP" } ]
    [VT.ConstantVariable (.bool true) .UNKNOWN [⟨"flag", .LOCAL, .VALUE_MATCH⟩]]

/-- State about to branch on a falsy boolean constant carrying a
guard. -/
def stBranchFalse : TracerState :=
  baseState [ { opname := "POP_JUMP_IF_FALSE", target := some 3 },
              { opname := "NOP" }, { opname := "NOP" }, { opname := "NOP" } ]
    [VT.ConstantVariable (.bool false) .UNKNOWN [⟨"flag", .LOCAL, .VALUE_MATCH⟩]]

/-- State about to branch on a tensor (data-dependent branch). -/
def stBranchTensor : TracerState :=
  baseState [ { opname := "POP_JUMP_IF_FALSE", target := some 3 },
              { opname := "NOP" }, { opname := "NOP" }, { opname := "NOP" } ]
    [VT.TensorVariable "x_0" .YES [⟨"x", .LOCAL, .TYPE_MATCH⟩]]

/-- State whose instruction stream only jumps forward. -/
def stForward : TracerState :=
  baseState [ { opname := "NOP" }, { opname := "NOP" } ] []

theorem Pres.same {s : TracerState} : Pres s s :=
  ⟨rfl, rfl, rfl, rfl, rfl, rfl, rfl, rfl, rfl, rfl, [], by simp, by simp⟩

theorem Pres.trans {a b c : TracerState} (h1 : Pres a b) (h2 : Pres b c) : Pres a c := by
  refine ⟨h2.instrs.trans h1.instrs, h2.ip.trans h1.ip, h2.names.trans h1.names,
    h2.stacksize.trans h1.stacksize, h2.uid.trans h1.uid, h2.gargs.trans h1.gargs,
    h2.phL.trans h1.phL, h2.grds.trans h1.grds, h2.brL.trans h1.brL,
    h2.retG.trans h1.retG, ?_⟩
  obtain ⟨ns, hns, h1g⟩ := h1.graphExt
  obtain ⟨ms, hms, h2g⟩ := h2.graphExt
  refine ⟨ns ++ ms, ?_, by rw [h2g, h1g, List.append_assoc]⟩
  intro n hn
  rcases List.mem_append.1 hn with h | h
  · exact hns n h
  · exact hms n h

theorem bind_ok {α β : Type} {e : Except Abort α} {f : α → Except Abort β} {b : β}
    (h : (e >>= f) = .ok b) : ∃ a, e = .ok a ∧ f a = .ok b := by
  cases e with
  | error err => simp [Bind.bind, Except.bind] at h
  | ok a => exact ⟨a, rfl, by simpa [Bind.bind, Except.bind] using h⟩

theorem phBases_append_nonph {g : List Node} {n : Node}
    (h : n.op ≠ NodeOp.placeholder) : phBases (g ++ [n]) = phBases g := by
  simp [phBases, List.filter_append, h]

theorem Pres.stackOnly {s : TracerState} {st : List VT} : Pres s { s with stack := st } :=
  ⟨rfl, rfl, rfl, rfl, rfl, rfl, rfl, rfl, rfl, rfl, [], by simp, by simp⟩

theorem Pres.stackLocals {s : TracerState} {st : List VT} {l : List (String × VT)} :
    Pres s { s with stack := st, symbolic_locals := l } :=
  ⟨rfl, rfl, rfl, rfl, rfl, rfl, rfl, rfl, rfl, rfl, [], by simp, by simp⟩

theorem Pres.pushCall {s : TracerState} {nop : NodeOp} {t : String}
    {pa : List String} {opts : VarOptions} (h : nop ≠ NodeOp.placeholder) :
    Pres s (pushProxyCall s nop t pa opts) :=
  ⟨rfl, rfl, rfl, rfl, rfl, rfl, rfl, rfl, rfl, rfl,
   [{ op := nop, target := t, args := pa }], by simpa using h, rfl⟩

theorem op_LOAD_FAST_pres {s s' : TracerState} {inst : Instr}
    (h : op_LOAD_FAST s inst = .ok s') : Pres s s' := by
  unfold op_LOAD_FAST at h
  split at h
  · cases h; exact Pres.stackOnly
  · simp at h

theorem op_STORE_FAST_pres {s s' : TracerState} {inst : Instr}
    (h : op_STORE_FAST s inst = .ok s') : Pres s s' := by
  unfold op_STORE_FAST at h
  split at h
  · cases h; exact Pres.stackLocals
  · simp at h

theorem op_LOAD_CONST_pres {s s' : TracerState} {inst : Instr}
    (h : op_LOAD_CONST s inst = .ok s') : Pres s s' := by
  unfold op_LOAD_CONST at h
  cases h; exact Pres.stackOnly

theorem load_builtin_not_ok {s s' : TracerState} {inst : Instr}
    (h : load_builtin s inst = .ok s') : False := by
  unfold load_builtin at h
  split at h <;> simp [unimplemented] at h

theorem op_LOAD_GLOBAL_pres {s s' : TracerState} {inst : Instr}
    (h : op_LOAD_GLOBAL s inst = .ok s') : Pres s s' := by
  unfold op_LOAD_GLOBAL at h
  split at h
  · exact absurd h load_builtin_not_ok
  · split at h
    · cases h; exact Pres.stackOnly
    · split at h <;> simp [unimplemented] at h

theorem op_NOP_pres {s s' : TracerState} {inst : Instr}
    (h : op_NOP s inst = .ok s') : Pres s s' := by
  cases h; exact Pres.same

theorem op_POP_TOP_pres {s s' : TracerState} {inst : Instr}
    (h : op_POP_TOP s inst = .ok s') : Pres s s' := by
  unfold op_POP_TOP at h
  split at h
  · cases h; exact Pres.stackOnly
  · simp at h

theorem op_ROT_TWO_pres {s s' : TracerState} {inst : Instr}
    (h : op_ROT_TWO s inst = .ok s') : Pres s s' := by
  unfold op_ROT_TWO at h
  split at h
  · cases h; exact Pres.stackOnly
  · simp at h

theorem op_ROT_THREE_pres {s s' : TracerState} {inst : Instr}
    (h : op_ROT_THREE s inst = .ok s') : Pres s s' := by
  unfold op_ROT_THREE at h
  split at h
  · cases h; exact Pres.stackOnly
  · simp at h

theorem op_ROT_FOUR_pres {s s' : TracerState} {inst : Instr}
    (h : op_ROT_FOUR s inst = .ok s') : Pres s s' := by
  unfold op_ROT_FOUR at h
  split at h
  · cases h; exact Pres.stackOnly
  · simp at h

theorem op_DUP_TOP_pres {s s' : TracerState} {inst : Instr}
    (h : op_DUP_TOP s inst = .ok s') : Pres s s' := by
  unfold op_DUP_TOP at h
  split at h
  · cases h; exact Pres.stackOnly
  · simp at h

theorem op_DUP_TOP_TWO_pres {s s' : TracerState} {inst : Instr}
    (h : op_DUP_TOP_TWO s inst = .ok s') : Pres s s' := by
  unfold op_DUP_TOP_TWO at h
  split at h
  · cases h; exact Pres.stackOnly
  · simp at h

theorem op_UNPACK_SEQUENCE_pres {s s' : TracerState} {inst : Instr}
    (h : op_UNPACK_SEQUENCE s inst = .ok s') : Pres s s' := by
  unfold op_UNPACK_SEQUENCE at h
  split at h
  · simp at h
  · split at h
    · split at h
      · cases h; exact Pres.stackOnly
      · simp at h
    · simp [unimplemented] at h

theorem stack_op_pres {s s' : TracerState} {opdesc : String} {nargs : Nat}
    (h : stack_op s opdesc nargs = .ok s') : Pres s s' := by
  unfold stack_op at h
  obtain ⟨⟨inputs, rest⟩, hpop, h⟩ := bind_ok h
  obtain ⟨opts, hprop, h⟩ := bind_ok h
  split at h
  · obtain ⟨proxies, hmap, h⟩ := bind_ok h
    cases h
    exact Pres.trans Pres.stackOnly (Pres.pushCall (by decide))
  · simp [unimplemented] at h

theorem call_function_pres {s s' : TracerState} {fn : VT} {args : List VT}
    {kwargs : List (PyVal × VT)} (h : call_function s fn args kwargs = .ok s') :
    Pres s s' := by
  unfold call_function at h
  split at h
  · obtain ⟨opts, hprop, h⟩ := bind_ok h
    obtain ⟨pa, hpa, h⟩ := bind_ok h
    obtain ⟨pk, hpk, h⟩ := bind_ok h
    cases h; exact Pres.pushCall (by decide)
  · obtain ⟨opts, hprop, h⟩ := bind_ok h
    obtain ⟨pa, hpa, h⟩ := bind_ok h
    obtain ⟨pk, hpk, h⟩ := bind_ok h
    cases h; exact Pres.pushCall (by decide)
  · obtain ⟨m, hm, h⟩ := bind_ok h
    split at h
    · obtain ⟨opts, hprop, h⟩ := bind_ok h
      obtain ⟨pa, hpa, h⟩ := bind_ok h
      cases h; exact Pres.pushCall (by decide)
    · simp [unimplemented] at h
  · simp [unimplemented] at h

theorem op_CALL_FUNCTION_pres {s s' : TracerState} {inst : Instr}
    (h : op_CALL_FUNCTION s inst = .ok s') : Pres s s' := by
  unfold op_CALL_FUNCTION at h
  obtain ⟨⟨args, rest1⟩, hpop, h⟩ := bind_ok h
  dsimp only at h
  split at h
  · exact Pres.trans Pres.stackOnly (call_function_pres h)
  · simp at h

theorem op_CALL_FUNCTION_EX_pres {s s' : TracerState} {inst : Instr}
    (h : op_CALL_FUNCTION_EX s inst = .ok s') : Pres s s' := by
  unfold op_CALL_FUNCTION_EX at h
  obtain ⟨⟨kw, av, rest1⟩, hx, h⟩ := bind_ok h
  dsimp only at h
  split at h
  · split at h
    · split at h
      · exact Pres.trans Pres.stackOnly (call_function_pres h)
      · simp at h
    · simp at h
  · simp at h

theorem op_CALL_FUNCTION_KW_pres {s s' : TracerState} {inst : Instr}
    (h : op_CALL_FUNCTION_KW s inst = .ok s') : Pres s s' := by
  unfold op_CALL_FUNCTION_KW at h
  split at h
  · simp at h
  · obtain ⟨⟨args, rest1⟩, hpop, h⟩ := bind_ok h
    dsimp only at h
    split at h
    · split at h
      · split at h
        · split at h
          · exact Pres.trans Pres.stackOnly (call_function_pres h)
          · simp at h
        · simp at h
      · simp at h
    · simp at h

theorem op_LOAD_ATTR_pres {s s' : TracerState} {inst : Instr}
    (h : op_LOAD_ATTR s inst = .ok s') : Pres s s' := by
  unfold op_LOAD_ATTR at h
  split at h
  · simp at h
  · obtain ⟨opts, hprop, h⟩ := bind_ok h
    split at h
    · obtain ⟨sub, hsub, h⟩ := bind_ok h
      split at h
      · cases h; exact Pres.trans Pres.stackOnly (Pres.pushCall (by decide))
      · cases h; exact Pres.stackOnly
      · simp [unimplemented] at h
    · cases h; exact Pres.stackOnly
    · split at h
      · cases h; exact Pres.stackOnly
      · simp at h
    · simp [unimplemented] at h

theorem op_LOAD_METHOD_pres {s s' : TracerState} {inst : Instr}
    (h : op_LOAD_METHOD s inst = .ok s') : Pres s s' := by
  unfold op_LOAD_METHOD at h
  obtain ⟨s1, h1, h⟩ := bind_ok h
  cases h
  exact Pres.trans (op_LOAD_ATTR_pres h1) Pres.stackOnly

theorem op_CALL_METHOD_pres {s s' : TracerState} {inst : Instr}
    (h : op_CALL_METHOD s inst = .ok s') : Pres s s' := by
  unfold op_CALL_METHOD at h
  obtain ⟨⟨args, rest1⟩, hpop, h⟩ := bind_ok h
  dsimp only at h
  split at h
  · split at h
    · exact Pres.trans Pres.stackOnly (call_function_pres h)
    · simp at h
  · simp at h

theorem op_BUILD_TUPLE_pres {s s' : TracerState} {inst : Instr}
    (h : op_BUILD_TUPLE s inst = .ok s') : Pres s s' := by
  unfold op_BUILD_TUPLE at h
  obtain ⟨⟨items, rest⟩, hpop, h⟩ := bind_ok h
  obtain ⟨opts, hprop, h⟩ := bind_ok h
  cases h; exact Pres.stackOnly

theorem op_BUILD_SLICE_pres {s s' : TracerState} {inst : Instr}
    (h : op_BUILD_SLICE s inst = .ok s') : Pres s s' := by
  unfold op_BUILD_SLICE at h
  obtain ⟨⟨items, rest⟩, hpop, h⟩ := bind_ok h
  obtain ⟨opts, hprop, h⟩ := bind_ok h
  cases h; exact Pres.stackOnly

theorem op_BUILD_LIST_pres {s s' : TracerState} {inst : Instr}
    (h : op_BUILD_LIST s inst = .ok s') : Pres s s' := by
  unfold op_BUILD_LIST at h
  obtain ⟨⟨items, rest⟩, hpop, h⟩ := bind_ok h
  obtain ⟨opts, hprop, h⟩ := bind_ok h
  cases h; exact Pres.stackOnly

theorem op_BUILD_MAP_pres {s s' : TracerState} {inst : Instr}
    (h : op_BUILD_MAP s inst = .ok s') : Pres s s' := by
  unfold op_BUILD_MAP at h
  obtain ⟨⟨items, rest⟩, hpop, h⟩ := bind_ok h
  obtain ⟨opts, hprop, h⟩ := bind_ok h
  obtain ⟨pairs, hpair, h⟩ := bind_ok h
  dsimp only at h
  split at h
  · cases h; exact Pres.stackOnly
  · simp at h

theorem op_BUILD_CONST_KEY_MAP_pres {s s' : TracerState} {inst : Instr}
    (h : op_BUILD_CONST_KEY_MAP s inst = .ok s') : Pres s s' := by
  unfold op_BUILD_CONST_KEY_MAP at h
  split at h
  · simp at h
  · obtain ⟨⟨values, rest⟩, hpop, h⟩ := bind_ok h
    obtain ⟨opts, hprop, h⟩ := bind_ok h
    split at h
    · split at h
      · split at h
        · cases h; exact Pres.stackOnly
        · simp at h
      · simp at h
    · simp at h

theorem op_POP_JUMP_IF_FALSE_ok {s s' : TracerState} {inst : Instr}
    (h : op_POP_JUMP_IF_FALSE s inst = .ok s') :
    ∃ g, s'.guards = s.guards ∪ g ∧ s'.branchLog = s.branchLog ++ [g] ∧
      s'.instructions = s.instructions ∧ s'.co_names = s.co_names ∧
      s'.co_stacksize = s.co_stacksize ∧ s'.uidName = s.uidName ∧
      s'.graphargs = s.graphargs ∧ s'.phLog = s.phLog ∧
      s'.retGuards = s.retGuards ∧ s'.graph = s.graph ∧
      (s'.instruction_pointer = s.instruction_pointer ∨
        ∃ t, inst.target = some t ∧ s'.instruction_pointer = t) := by
  unfold op_POP_JUMP_IF_FALSE at h
  split at h
  · simp at h
  · obtain ⟨gs, hg, h⟩ := bind_ok h
    split at h
    · split at h
      · cases h
        exact ⟨gs.toFinset, rfl, rfl, rfl, rfl, rfl, rfl, rfl, rfl, rfl, rfl, Or.inl rfl⟩
      · unfold jump at h
        split at h
        · dsimp only at h
          split at h
          · cases h
            refine ⟨gs.toFinset, rfl, rfl, rfl, rfl, rfl, rfl, rfl, rfl, rfl, rfl, ?_⟩
            exact Or.inr ⟨_, by assumption, rfl⟩
          · simp at h
        · simp at h
    · simp [unimplemented] at h

theorem create_load_global_ok {s1 : TracerState} {n : String} {i : Instr}
    (h : create_load_global s1 n = .ok i) : i.opname = "LOAD_GLOBAL" ∧ i.argstr = n := by
  unfold create_load_global at h
  split at h
  · cases h; exact ⟨rfl, rfl⟩
  · simp at h

theorem load_argstr {s1 : TracerState} {a : GraphArg} {i : Instr}
    (h : GraphArg.load s1 a = .ok i) : i.argstr = a.name := by
  cases a with
  | LocalArg n =>
    simp only [GraphArg.load, create_load_fast] at h
    split at h
    · cases h; rfl
    · simp at h
  | GlobalArg n =>
    simp only [GraphArg.load, create_load_global] at h
    split at h
    · cases h; rfl
    · simp at h

theorem mapM_load_argstr {s1 : TracerState} :
    ∀ {gl : List GraphArg} {loads : List Instr},
      gl.mapM (GraphArg.load s1) = .ok loads →
      loads.map Instr.argstr = argNames gl := by
  intro gl
  induction gl with
  | nil =>
    intro loads h
    simp only [List.mapM_nil] at h
    cases h
    simp [argNames]
  | cons a rest ih =>
    intro loads h
    rw [List.mapM_cons] at h
    obtain ⟨i, hi, h⟩ := bind_ok h
    obtain ⟨tl, htl, h⟩ := bind_ok h
    cases h
    simp [argNames, load_argstr hi]
    simpa [argNames] using ih htl

/-- What a successful `RETURN_VALUE` does to the tracked state: the
returned value's guard set is merged into the final guard set and
recorded, the fresh callable name is appended to `co_names`, the
stack-size hint is set to the captured-argument count plus one, only a
non-placeholder (output) node is appended to the graph, and the whole
instruction stream is replaced by load-callable, one load per captured
argument in capture order, call, return. -/
theorem op_RETURN_VALUE_ok {s s' : TracerState} {inst : Instr}
    (h : op_RETURN_VALUE s inst = .ok s') :
    ∃ g glob loads,
      s'.retGuards = some g ∧ s'.guards = s.guards ∪ g ∧
      s'.branchLog = s.branchLog ∧ s'.phLog = s.phLog ∧
      s'.graphargs = s.graphargs ∧ s'.uidName = s.uidName ∧
      s'.co_names = s.co_names ++ [s.uidName] ∧
      s'.co_stacksize = s.graphargs.length + 1 ∧
      glob.opname = "LOAD_GLOBAL" ∧ glob.argstr = s.uidName ∧
      loads.map Instr.argstr = argNames s.graphargs ∧
      (∃ ns, s'.graph = s.graph ++ ns ∧ ∀ n ∈ ns, n.op ≠ NodeOp.placeholder) ∧
      s'.instructions = glob :: loads ++
        [{ opname := "CALL_FUNCTION", argnum := s.graphargs.length },
         { opname := "RETURN_VALUE" }] := by
  unfold op_RETURN_VALUE at h
  split at h
  · simp at h
  · obtain ⟨st, hst, h⟩ := bind_ok h
    split at h
    · split at h
      · obtain ⟨lg, hlg, h⟩ := bind_ok h
        obtain ⟨loads, hloads, h⟩ := bind_ok h
        cases h
        obtain ⟨hop, harg⟩ := create_load_global_ok hlg
        refine ⟨_, lg, loads, rfl, rfl, rfl, rfl, rfl, rfl, rfl, rfl, hop, harg,
          mapM_load_argstr hloads, ⟨_, rfl, ?_⟩, rfl⟩
        intro n hn
        simp at hn
        subst hn
        simp
      · simp [unimplemented] at h
    · simp [unimplemented] at h

theorem dispatch_pres {s1 s' : TracerState} {inst : Instr}
    (hok : dispatch s1 inst = .ok s')
    (hnj : inst.opname ≠ "POP_JUMP_IF_FALSE") (hnr : inst.opname ≠ "RETURN_VALUE") :
    Pres s1 s' := by
  unfold dispatch at hok
  split at hok
  · exact op_LOAD_FAST_pres hok
  · exact op_STORE_FAST_pres hok
  · exact op_LOAD_CONST_pres hok
  · exact op_LOAD_GLOBAL_pres hok
  · exact absurd (by assumption) hnj
  · exact op_CALL_FUNCTION_pres hok
  · exact op_CALL_FUNCTION_EX_pres hok
  · exact op_CALL_FUNCTION_KW_pres hok
  · exact op_LOAD_METHOD_pres hok
  · exact op_CALL_METHOD_pres hok
  · exact op_LOAD_ATTR_pres hok
  · exact op_BUILD_TUPLE_pres hok
  · exact op_BUILD_SLICE_pres hok
  · exact op_BUILD_LIST_pres hok
  · exact op_BUILD_MAP_pres hok
  · exact op_BUILD_CONST_KEY_MAP_pres hok
  · exact op_UNPACK_SEQUENCE_pres hok
  · exact absurd (by assumption) hnr
  · exact op_NOP_pres hok
  · exact op_POP_TOP_pres hok
  · exact op_ROT_TWO_pres hok
  · exact op_ROT_THREE_pres hok
  · exact op_ROT_FOUR_pres hok
  · exact op_DUP_TOP_pres hok
  · exact op_DUP_TOP_TWO_pres hok
  · exact stack_op_pres hok
  · exact stack_op_pres hok
  · exact stack_op_pres hok
  · exact stack_op_pres hok
  · exact stack_op_pres hok
  · exact stack_op_pres hok
  · exact stack_op_pres hok
  · exact stack_op_pres hok
  · exact stack_op_pres hok
  · exact stack_op_pres hok
  · exact stack_op_pres hok
  · exact stack_op_pres hok
  · exact stack_op_pres hok
  · exact stack_op_pres hok
  · exact stack_op_pres hok
  · exact stack_op_pres hok
  · exact stack_op_pres hok
  · exact stack_op_pres hok
  · simp [unimplemented] at hok

theorem dispatch_pjif {s1 s' : TracerState} {inst : Instr}
    (hop : inst.opname = "POP_JUMP_IF_FALSE") (h : dispatch s1 inst = .ok s') :
    op_POP_JUMP_IF_FALSE s1 inst = .ok s' := by
  unfold dispatch at h
  split at h <;> simp_all

theorem dispatch_ret {s1 s' : TracerState} {inst : Instr}
    (hop : inst.opname = "RETURN_VALUE") (h : dispatch s1 inst = .ok s') :
    op_RETURN_VALUE s1 inst = .ok s' := by
  unfold dispatch at h
  split at h <;> simp_all

theorem dispatch_missing {s1 : TracerState} {inst : Instr}
    (hm : handledOp inst.opname = false) :
    dispatch s1 inst = .error (.unsupported ("missing: " ++ inst.opname)) := by
  unfold dispatch
  split
  all_goals first
    | rfl
    | (rename_i heq; rw [heq] at hm; exact absurd hm (by decide))

theorem ContFacts_of_pres {s s' : TracerState}
    (hp : Pres { s with instruction_pointer := s.instruction_pointer + 1 } s') :
    ContFacts s s' := by
  refine ⟨hp.instrs, hp.names, hp.stacksize, hp.retG, Or.inl ⟨hp.grds, hp.brL⟩, fun _ => ?_⟩
  have h := hp.ip
  simp at h
  omega

/-- Master step lemma: every successful step was fetched in range,
leaves the ghost capture bookkeeping and `uidName` alone, only ever
appends non-placeholder nodes to the graph, and satisfies `ContFacts`
when it continues and `RetFacts` when it returns. -/
theorem step_effects {s s' : TracerState} {c : Bool} (h : step s = .ok (s', c)) :
    s.instruction_pointer < s.instructions.length ∧
    s'.uidName = s.uidName ∧ s'.graphargs = s.graphargs ∧ s'.phLog = s.phLog ∧
    (∃ ns, s'.graph = s.graph ++ ns ∧ ∀ n ∈ ns, n.op ≠ NodeOp.placeholder) ∧
    (c = true → ContFacts s s') ∧ (c = false → RetFacts s s') := by
  unfold step at h
  split at h
  · simp at h
  · rename_i inst hfetch
    obtain ⟨s2, hd, h⟩ := bind_ok h
    cases h
    have hlt : s.instruction_pointer < s.instructions.length :=
      List.getElem?_eq_some.mp hfetch |>.1
    by_cases hret : inst.opname = "RETURN_VALUE"
    · have hr := op_RETURN_VALUE_ok (dispatch_ret hret hd)
      obtain ⟨g, glob, loads, h1, h2, h3, h4, h5, h6, h7, h8, h9, h10, h11, h12, h13⟩ := hr
      refine ⟨hlt, h6, h5, h4, ?_, ?_, ?_⟩
      · exact h12
      · intro hc
        rw [hret] at hc
        exact absurd hc (by decide)
      · intro _
        exact ⟨g, glob, loads, h1, h2, h3, h7, h8, h9, h10, h11, h13⟩
    · by_cases hpj : inst.opname = "POP_JUMP_IF_FALSE"
      · have hj := op_POP_JUMP_IF_FALSE_ok (dispatch_pjif hpj hd)
        obtain ⟨g, h1, h2, h3, h4, h5, h6, h7, h8, h9, h10, h11⟩ := hj
        refine ⟨hlt, h6, h7, h8, ⟨[], by simpa using h10, by simp⟩, ?_, ?_⟩
        · intro _
          refine ⟨h3, h4, h5, h9, Or.inr ⟨g, h1, h2⟩, ?_⟩
          intro hfwd
          rcases h11 with hsame | ⟨t, htgt, hip⟩
          · rw [hsame]; simp
          · rw [hip]
            exact hfwd s.instruction_pointer inst t hfetch htgt
        · intro hc
          simp [bne] at hc
          exact absurd hc hret
      · have hp := dispatch_pres hd hpj hret
        refine ⟨hlt, hp.uid, hp.gargs, hp.phL, ?_, fun _ => ContFacts_of_pres hp, ?_⟩
        · obtain ⟨ns, hns, hg⟩ := hp.graphExt
          exact ⟨ns, hg, hns⟩
        · intro hc
          simp [bne] at hc
          exact absurd hc hret

theorem lastPhIdx_none {l : List Node} (h : ∀ n ∈ l, n.op ≠ NodeOp.placeholder) :
    lastPhIdx l = Option.none := by
  induction l with
  | nil => rfl
  | cons a rest ih =>
    have ha := h a (by simp)
    rw [lastPhIdx, ih (fun n hn => h n (by simp [hn]))]
    simp [ha]

theorem lastPhIdx_all {ps rest : List Node}
    (hne : ps ≠ []) (hps : ∀ n ∈ ps, n.op = NodeOp.placeholder)
    (hrest : ∀ n ∈ rest, n.op ≠ NodeOp.placeholder) :
    lastPhIdx (ps ++ rest) = some (ps.length - 1) := by
  induction ps with
  | nil => exact absurd rfl hne
  | cons a tl ih =>
    cases tl with
    | nil =>
      rw [List.cons_append, List.nil_append, lastPhIdx, lastPhIdx_none hrest]
      simp [hps a (by simp)]
    | cons b tl2 =>
      rw [List.cons_append, lastPhIdx,
        ih (by simp) (fun n hn => hps n (by simp [List.mem_cons] at hn ⊢; tauto))]
      simp

theorem insertPlaceholder_shape {ps rest : List Node} {p : Node}
    (hps : ∀ n ∈ ps, n.op = NodeOp.placeholder)
    (hrest : ∀ n ∈ rest, n.op ≠ NodeOp.placeholder) :
    insertPlaceholder (ps ++ rest) p = ps ++ p :: rest := by
  cases hne : ps with
  | nil =>
    subst hne
    rw [insertPlaceholder, List.nil_append, lastPhIdx_none hrest]
    simp
  | cons a tl =>
    rw [← hne, insertPlaceholder, lastPhIdx_all (by simp [hne]) hps hrest]
    have hlen : ps.length - 1 + 1 = ps.length := by
      cases hps2 : ps
      · simp [hps2] at hne
      · simp [hps2]
    dsimp only
    rw [hlen, List.take_left, List.drop_left]

theorem GraphOK_phBases {s : TracerState} (h : GraphOK s) :
    phBases s.graph = argNames s.graphargs ∧ phBases s.graph = s.phLog := by
  obtain ⟨ps, rest, hg, hps, hrest, h1, h2⟩ := h
  have : phBases s.graph = ps.map Node.base := by
    rw [hg, phBases, List.filter_append]
    have e1 : ps.filter (fun n => decide (n.op = NodeOp.placeholder)) = ps :=
      List.filter_eq_self.mpr (fun n hn => by simp [hps n hn])
    have e2 : rest.filter (fun n => decide (n.op = NodeOp.placeholder)) = [] :=
      List.filter_eq_nil_iff.mpr (fun n hn => by simp [hrest n hn])
    rw [e1, e2, List.append_nil]
  exact ⟨this.trans h1, this.trans h2⟩

theorem GraphOK_ext {s s' : TracerState} (h : GraphOK s)
    (hns : ∃ ns, s'.graph = s.graph ++ ns ∧ ∀ n ∈ ns, n.op ≠ NodeOp.placeholder)
    (hga : s'.graphargs = s.graphargs) (hph : s'.phLog = s.phLog) : GraphOK s' := by
  obtain ⟨ps, rest, hg, hps, hrest, h1, h2⟩ := h
  obtain ⟨ns, hg2, hns⟩ := hns
  refine ⟨ps, rest ++ ns, ?_, hps, ?_, ?_, ?_⟩
  · rw [hg2, hg, List.append_assoc]
  · intro n hn
    rcases List.mem_append.1 hn with hn | hn
    · exact hrest n hn
    · exact hns n hn
  · rw [hga]; exact h1
  · rw [hph]; exact h2

theorem wrap_local_facts {s : TracerState} {name : String} {value : PyObj}
    {s1 : TracerState} {vt : VT} (h : wrap_local s name value = .ok (s1, vt)) :
    s1.guards = s.guards ∧ s1.branchLog = s.branchLog ∧ s1.retGuards = s.retGuards ∧
    s1.uidName = s.uidName ∧ s1.co_names = s.co_names ∧ s1.co_stacksize = s.co_stacksize ∧
    s1.co_varnames = s.co_varnames ∧
    s1.instructions = s.instructions ∧ s1.instruction_pointer = s.instruction_pointer ∧
    s1.symbolic_locals = s.symbolic_locals ∧ (GraphOK s → GraphOK s1) := by
  unfold wrap_local at h
  split at h
  · unfold create_graph_input at h
    dsimp only at h
    cases h
    refine ⟨rfl, rfl, rfl, rfl, rfl, rfl, rfl, rfl, rfl, rfl, ?_⟩
    intro hok
    obtain ⟨ps, rest, hg, hps, hrest, h1, h2⟩ := hok
    refine ⟨ps ++ [{ op := .placeholder, target := name ++ "_" ++ toString s.cnt, base := name }],
      rest, ?_, ?_, hrest, ?_, ?_⟩
    · simp only [hg]
      rw [insertPlaceholder_shape hps hrest]
      simp
    · intro n hn
      rcases List.mem_append.1 hn with hn | hn
      · exact hps n hn
      · simp at hn; subst hn; rfl
    · simp [argNames, GraphArg.name] at h1 ⊢
      simp [h1, GraphArg.name]
    · simp [h2]
  · cases h
    exact ⟨rfl, rfl, rfl, rfl, rfl, rfl, rfl, rfl, rfl, rfl, fun hok => by
      obtain ⟨ps, rest, hg, hps, hrest, h1, h2⟩ := hok
      exact ⟨ps, rest, hg, hps, hrest, h1, h2⟩⟩
  · cases h
    exact ⟨rfl, rfl, rfl, rfl, rfl, rfl, rfl, rfl, rfl, rfl, fun hok => hok⟩
  · cases h
    exact ⟨rfl, rfl, rfl, rfl, rfl, rfl, rfl, rfl, rfl, rfl, fun hok => hok⟩
  · simp [unimplemented] at h

theorem initLocals_facts {f_locals : List (String × PyObj)} :
    ∀ {ks : List String} {s s0 : TracerState}, initLocals s f_locals ks = .ok s0 →
    s0.guards = s.guards ∧ s0.branchLog = s.branchLog ∧ s0.retGuards = s.retGuards ∧
    s0.uidName = s.uidName ∧ s0.co_names = s.co_names ∧ s0.co_stacksize = s.co_stacksize ∧
    s0.co_varnames = s.co_varnames ∧
    s0.instructions = s.instructions ∧ s0.instruction_pointer = s.instruction_pointer ∧
    (GraphOK s → GraphOK s0) := by
  intro ks
  induction ks with
  | nil =>
    intro s s0 h
    rw [initLocals] at h
    cases h
    exact ⟨rfl, rfl, rfl, rfl, rfl, rfl, rfl, rfl, rfl, fun hok => hok⟩
  | cons k rest ih =>
    intro s s0 h
    rw [initLocals] at h
    split at h
    · exact ih h
    · obtain ⟨⟨s1, vt⟩, hw, h⟩ := bind_ok h
      dsimp only at h
      obtain ⟨w1, w2, w3, w4, w5, w6, w7, w8, w9, w10, w11⟩ := wrap_local_facts hw
      obtain ⟨i1, i2, i3, i4, i5, i6, i7, i8, i9, i10⟩ := ih h
      refine ⟨i1.trans w1, i2.trans w2, i3.trans w3, i4.trans w4, i5.trans w5,
        i6.trans w6, i7.trans w7, i8.trans w8, i9.trans w9, ?_⟩
      intro hok
      refine i10 ?_
      obtain ⟨ps, rest2, hg, hps, hrest, h1, h2⟩ := w11 hok
      exact ⟨ps, rest2, hg, hps, hrest, h1, h2⟩

theorem initTracer_facts {instructions : List Instr}
    {f_locals f_globals : List (String × PyObj)} {f_builtins : List String}
    {co_varnames co_names : List String} {co_stacksize : Nat} {uid : String}
    {s0 : TracerState}
    (h : initTracer instructions f_locals f_globals f_builtins co_varnames co_names
      co_stacksize uid = .ok s0) :
    s0.guards = ∅ ∧ s0.branchLog = [] ∧ s0.retGuards = Option.none ∧
    s0.uidName = uid ∧ s0.co_names = co_names ∧ s0.co_stacksize = co_stacksize ∧
    s0.co_varnames = co_varnames ∧
    s0.instructions = instructions ∧ s0.instruction_pointer = 0 ∧ GraphOK s0 := by
  unfold initTracer at h
  obtain ⟨i1, i2, i3, i4, i5, i6, i7, i8, i9, i10⟩ := initLocals_facts h
  refine ⟨i1, i2, i3, i4, i5, i6, i7, i8, i9, ?_⟩
  refine i10 ⟨[], [], rfl, by simp, by simp, rfl, rfl⟩

theorem unionList_append_one (l : List (Finset Guard)) (g : Finset Guard) :
    unionList (l ++ [g]) = unionList l ∪ g := by
  induction l with
  | nil => simp [unionList]
  | cons a rest ih =>
    simp only [unionList, List.cons_append, List.foldr_cons] at ih ⊢
    rw [ih, Finset.union_assoc]

theorem run_ind (R Q : TracerState → Prop)
    (hT : ∀ s s', step s = .ok (s', true) → R s → R s')
    (hF : ∀ s s', step s = .ok (s', false) → R s → Q s') :
    ∀ {fuel : Nat} {s s' : TracerState}, run fuel s = some (.ok s') → R s → Q s' := by
  intro fuel
  induction fuel with
  | zero => intro s s' h; simp [run] at h
  | succ n ih =>
    intro s s' h hr
    rw [run] at h
    cases hs : step s with
    | error e => rw [hs] at h; simp at h
    | ok p =>
      rw [hs] at h
      obtain ⟨s2, c⟩ := p
      dsimp only at h
      cases c with
      | true =>
        rw [if_pos rfl] at h
        exact ih h (hT s s2 hs hr)
      | false =>
        rw [if_neg (by simp)] at h
        simp only [Option.some_inj] at h
        cases h
        exact hF s _ hs hr

theorem RunInv_step {uid : String} {names0 : List String} {s t : TracerState}
    (hstep : step s = .ok (t, true)) (hr : RunInv uid names0 s) :
    RunInv uid names0 t := by
  obtain ⟨hok, huid0, hn0, hgu0, hrg0, hsub0⟩ := hr
  obtain ⟨hlt, huid, hga, hph, hgext, hcont, _⟩ := step_effects hstep
  obtain ⟨hi1, hn, hss, hrg, hgd, hip⟩ := hcont rfl
  refine ⟨GraphOK_ext hok hgext hga hph, huid.trans huid0, hn.trans hn0, ?_, hrg.trans hrg0, ?_⟩
  · rcases hgd with ⟨hg, hb⟩ | ⟨g, hg, hb⟩
    · rw [hg, hb, hgu0]
    · rw [hg, hb, hgu0, unionList_append_one]
  · intro gs hgs
    rcases hgd with ⟨hg, hb⟩ | ⟨g, hg, hb⟩
    · rw [hg]; exact hsub0 gs (by rwa [hb] at hgs)
    · rw [hb] at hgs
      rcases List.mem_append.1 hgs with hgs | hgs
      · rw [hg]; exact (hsub0 gs hgs).trans Finset.subset_union_left
      · simp at hgs; subst hgs; rw [hg]; exact Finset.subset_union_right

/-- What holds of the final tracer state of every successful trace:
the graph bookkeeping is intact, the final guard set is exactly the
union of the branch guard sets and the returned value guard set, the
global-name list was extended by appending the fresh callable name, the
stack-size hint equals the captured-argument count plus one, and the
instruction stream was replaced by load-callable / one load per
captured argument in capture order / call / return. -/
theorem trace_final_facts {uid : String} {fuel : Nat} {frame : Frame} {s' : TracerState}
    (h : traceOutcome uid fuel frame = some (.ok s')) :
    GraphOK s' ∧
    (∃ rg, s'.retGuards = some rg ∧ s'.guards = unionList s'.branchLog ∪ rg) ∧
    s'.co_names = frame.f_code.co_names ++ [uid] ∧
    s'.co_stacksize = s'.graphargs.length + 1 ∧
    (∃ glob loads, glob.opname = "LOAD_GLOBAL" ∧ glob.argstr = uid ∧
      loads.map Instr.argstr = argNames s'.graphargs ∧
      s'.instructions = glob :: loads ++
        [{ opname := "CALL_FUNCTION", argnum := s'.graphargs.length },
         { opname := "RETURN_VALUE" }]) ∧
    (∀ gs ∈ s'.branchLog, gs ⊆ s'.guards) := by
  unfold traceOutcome at h
  split at h
  · simp at h
  · rename_i s0 hinit
    have hi := initTracer_facts hinit
    refine run_ind (RunInv uid frame.f_code.co_names)
      (fun t => GraphOK t ∧
        (∃ rg, t.retGuards = some rg ∧ t.guards = unionList t.branchLog ∪ rg) ∧
        t.co_names = frame.f_code.co_names ++ [uid] ∧
        t.co_stacksize = t.graphargs.length + 1 ∧
        (∃ glob loads, glob.opname = "LOAD_GLOBAL" ∧ glob.argstr = uid ∧
          loads.map Instr.argstr = argNames t.graphargs ∧
          t.instructions = glob :: loads ++
            [{ opname := "CALL_FUNCTION", argnum := t.graphargs.length },
             { opname := "RETURN_VALUE" }]) ∧
        (∀ gs ∈ t.branchLog, gs ⊆ t.guards))
      (fun s t hstep hr => RunInv_step hstep hr) ?_ h ?_
    · intro s t hstep hr
      obtain ⟨hok, huid0, hn0, hgu0, hrg0, hsub0⟩ := hr
      obtain ⟨hlt, huid, hga, hph, hgext, _, hretc⟩ := step_effects hstep
      obtain ⟨g, glob, loads, f1, f2, f3, f4, f5, f6, f7, f8, f9⟩ := hretc rfl
      refine ⟨GraphOK_ext hok hgext hga hph, ⟨g, f1, ?_⟩, ?_, ?_, ?_, ?_⟩
      · rw [f2, f3, hgu0]
      · rw [f4, hn0, huid0]
      · rw [f5, hga]
      · refine ⟨glob, loads, f6, ?_, ?_, ?_⟩
        · rw [f7, huid0]
        · rw [f8, hga]
        · rw [f9, hga]
      · intro gs hgs
        rw [f3] at hgs
        rw [f2]
        exact (hsub0 gs hgs).trans Finset.subset_union_left
    · obtain ⟨i1, i2, i3, i4, i5, i6, i7, i8, i9, i10⟩ := hi
      exact ⟨i10, i4, i5, by rw [i1, i2]; rfl, i3, by rw [i2]; simp⟩

theorem run_total : ∀ (fuel : Nat) (s : TracerState), fwdOK s →
    s.instructions.length - s.instruction_pointer < fuel →
    run fuel s ≠ Option.none := by
  intro fuel
  induction fuel with
  | zero => intro s _ h; omega
  | succ n ih =>
    intro s hf hlt
    rw [run]
    cases hs : step s with
    | error e => simp
    | ok p =>
      obtain ⟨s2, c⟩ := p
      dsimp only
      cases c with
      | false => rw [if_neg (by simp)]; simp
      | true =>
        rw [if_pos rfl]
        obtain ⟨hlt2, _, _, _, _, hcont, _⟩ := step_effects hs
        obtain ⟨hinstr, _, _, _, _, hip⟩ := hcont rfl
        apply ih s2
        · intro i inst t hi ht
          exact hf i inst t (by rwa [← hinstr]) ht
        · rw [hinstr]
          have := hip hf
          omega

theorem fwdFrom_spec : ∀ (l : List Instr) (i : Nat), fwdFrom i l = true →
    ∀ (j : Nat) (inst : Instr) (t : Nat), l[j]? = some inst → inst.target = some t →
      i + j < t := by
  intro l
  induction l with
  | nil => intro i _ j inst t hj; simp at hj
  | cons a rest ih =>
    intro i hfwd j inst t hj ht
    rw [fwdFrom, Bool.and_eq_true] at hfwd
    cases j with
    | zero =>
      simp at hj
      subst hj
      rw [ht] at hfwd
      have := hfwd.1
      simp at this
      omega
    | succ j2 =>
      simp only [List.getElem?_cons_succ] at hj
      have := ih (i + 1) hfwd.2 j2 inst t hj ht
      omega

theorem dispatch_eq_of_pjif {s1 : TracerState} {inst : Instr}
    (hop : inst.opname = "POP_JUMP_IF_FALSE") :
    dispatch s1 inst = op_POP_JUMP_IF_FALSE s1 inst := by
  unfold dispatch
  split <;> simp_all

theorem dispatch_eq_of_unpack {s1 : TracerState} {inst : Instr}
    (hop : inst.opname = "UNPACK_SEQUENCE") :
    dispatch s1 inst = op_UNPACK_SEQUENCE s1 inst := by
  unfold dispatch
  split <;> simp_all

theorem dispatch_eq_of_load_global {s1 : TracerState} {inst : Instr}
    (hop : inst.opname = "LOAD_GLOBAL") :
    dispatch s1 inst = op_LOAD_GLOBAL s1 inst := by
  unfold dispatch
  split <;> simp_all

theorem dispatch_eq_of_kw {s1 : TracerState} {inst : Instr}
    (hop : inst.opname = "CALL_FUNCTION_KW") :
    dispatch s1 inst = op_CALL_FUNCTION_KW s1 inst := by
  unfold dispatch
  split <;> simp_all

/-- C1: for every frame offered to `convert_frame`, the call never
propagates an exception: whenever the inner `convert_frame_assert`
fails — with the explicit Unsupported signal or any other exception
kind — `convert_frame` returns the frame's original code object
unmodified together with an empty guard set. -/
theorem convert_frame_failure_boundary (uid : String) (fuel : Nat) (frame : Frame)
    (e : Abort) (h : convert_frame_assert uid fuel frame = some (.error e)) :
    convert_frame uid fuel frame = some { code := frame.f_code, guards := ∅ } := by
  unfold convert_frame
  rw [h]

theorem convert_frame_failure_boundary_witness :
    convert_frame_assert "fn0" 5 frameStr = some (.error (.unsupported "wrap_local: str")) ∧
    convert_frame "fn0" 5 frameStr = some { code := frameStr.f_code, guards := ∅ } :=
  ⟨rfl, convert_frame_failure_boundary "fn0" 5 frameStr (.unsupported "wrap_local: str") rfl⟩

/-- C4 counterexample: a stream containing an unhandled opcode placed
after the return is converted successfully — the result is a rewritten
(4-instruction) stream with one guard, not the original 3-instruction
stream with empty guards, refuting the claim for arbitrary streams
merely containing an unhandled opcode. -/
theorem missing_opcode_unreached_counterexample :
    frameBogusAfterRet.f_code.instrs.any (fun i => !handledOp i.opname) = true ∧
    (convert_frame "fn0" 8 frameBogusAfterRet).map (fun gc => gc.code.instrs.length) = some 4 ∧
    frameBogusAfterRet.f_code.instrs.length = 3 ∧
    (convert_frame "fn0" 8 frameBogusAfterRet).map (fun gc => gc.guards.card) = some 1 :=
  ⟨rfl, rfl, rfl, rfl⟩

/-- C4 amended: when the tracer actually steps onto an instruction
whose opcode has no registered handler, the trace aborts with the
Unsupported signal naming that opcode (it is never silently skipped),
and a conversion whose trace aborts this way yields the original
instruction stream with an empty guard set. -/
theorem missing_opcode_fail_closed (s : TracerState) (inst : Instr)
    (hfetch : s.instructions[s.instruction_pointer]? = some inst)
    (hmiss : handledOp inst.opname = false) :
    step s = .error (.unsupported ("missing: " ++ inst.opname)) ∧
    (∀ (uid : String) (fuel : Nat) (frame : Frame),
      convert_frame_assert uid fuel frame =
        some (.error (.unsupported ("missing: " ++ inst.opname))) →
      convert_frame uid fuel frame = some { code := frame.f_code, guards := ∅ }) := by
  constructor
  · unfold step
    rw [hfetch]
    dsimp only
    rw [dispatch_missing hmiss]
    rfl
  · intro uid fuel frame h
    unfold convert_frame
    rw [h]

theorem missing_opcode_fail_closed_witness :
    step stMissing = .error (.unsupported "missing: BOGUS_OP") ∧
    convert_frame "fn0" 5 frameMissingOnly =
      some { code := frameMissingOnly.f_code, guards := ∅ } :=
  ⟨(missing_opcode_fail_closed stMissing _ rfl rfl).1,
   (missing_opcode_fail_closed stMissing _ rfl rfl).2 "fn0" 5 frameMissingOnly rfl⟩

/-- C7 counterexample: stepping a load-global instruction whose bound
value is a tensor aborts with the author's `assert False` — it does not
push a tensor variable and continue as the claim states. -/
theorem load_global_tensor_counterexample :
    stGlobalTensor.f_globals.lookup "g" = some PyObj.tensor ∧
    step stGlobalTensor = .error (.assertFail "TODO(jansel): need to debug a crash here") ∧
    (∀ p : TracerState × Bool, step stGlobalTensor ≠ .ok p) := by
  refine ⟨rfl, rfl, ?_⟩
  intro p hp
  have h2 : (Except.error (Abort.assertFail "TODO(jansel): need to debug a crash here") :
      Except Abort (TracerState × Bool)) = Except.ok p := hp
  exact Except.noConfusion h2

/-- C7 amended: for every load-global instruction whose bound value is
an array (tensor), the trace aborts via the `assert False` the author
left on that path (tagged `TODO ... crash`); the code that would
capture the global as a graph argument is unreachable dead code, and
the abort degrades at the orchestrator boundary to the unmodified code
object. -/
theorem load_global_tensor_asserts (s : TracerState) (inst : Instr)
    (hfetch : s.instructions[s.instruction_pointer]? = some inst)
    (hop : inst.opname = "LOAD_GLOBAL")
    (hval : s.f_globals.lookup inst.argstr = some PyObj.tensor) :
    step s = .error (.assertFail "TODO(jansel): need to debug a crash here") := by
  unfold step
  rw [hfetch]
  dsimp only
  rw [dispatch_eq_of_load_global hop]
  unfold op_LOAD_GLOBAL
  have hval2 : ({ s with instruction_pointer := s.instruction_pointer + 1 } :
      TracerState).f_globals.lookup inst.argstr = some PyObj.tensor := hval
  rw [hval2]
  rfl

theorem load_global_tensor_asserts_witness :
    step stGlobalTensor = .error (.assertFail "TODO(jansel): need to debug a crash here") :=
  load_global_tensor_asserts stGlobalTensor _ rfl rfl rfl

/-- C8 counterexample: a successful trace of `return x + y` over a code
object whose original stack-size hint is 5 rewrites the hint to 3 —
the rewriter decreases the hint below its original value, refuting the
"raised, never decreased" claim. -/
theorem stacksize_decrease_counterexample :
    frameAdd.f_code.co_stacksize = 5 ∧
    (convert_frame "fn0" 8 frameAdd).map (fun gc => gc.code.co_stacksize) = some 3 ∧
    (3 : Nat) < 5 :=
  ⟨rfl, rfl, by decide⟩

/-- C8 amended: for every successful trace, the rewriter appends the
freshly minted callable name to the global-name list (existing entries
unchanged, in order) and sets the stack-size hint to the number of
captured arguments plus one — exactly what the rewritten stream needs,
but possibly lower than the original hint. -/
theorem rewriter_metadata (uid : String) (fuel : Nat) (frame : Frame) (s' : TracerState)
    (h : traceOutcome uid fuel frame = some (.ok s')) :
    s'.co_names = frame.f_code.co_names ++ [uid] ∧
    s'.co_stacksize = s'.graphargs.length + 1 := by
  obtain ⟨_, _, h3, h4, _, _⟩ := trace_final_facts h
  exact ⟨h3, h4⟩

theorem rewriter_metadata_witness :
    ∃ s', traceOutcome "fn0" 8 frameAdd = some (.ok s') ∧
      s'.co_names = frameAdd.f_code.co_names ++ ["fn0"] ∧
      s'.co_stacksize = s'.graphargs.length + 1 :=
  ⟨_, rfl, rewriter_metadata "fn0" 8 frameAdd _ rfl⟩

/-- C2: for every successful trace, the rewritten instruction stream
loads the captured arguments in exactly the order in which their graph
placeholders were first created — the ghost `phLog` is the creation
order, the placeholders sit in the graph in that order, and the
rewritten stream's argument loads follow it — and `create_graph_input`
inserts each new placeholder immediately after the last existing
placeholder, or at the very front if none exist. -/
theorem argument_order_stability (uid : String) (fuel : Nat) (frame : Frame)
    (s' : TracerState) (h : traceOutcome uid fuel frame = some (.ok s')) :
    (∃ glob loads,
      s'.instructions = glob :: loads ++
        [{ opname := "CALL_FUNCTION", argnum := s'.graphargs.length },
         { opname := "RETURN_VALUE" }] ∧
      loads.map Instr.argstr = argNames s'.graphargs ∧
      loads.map Instr.argstr = s'.phLog) ∧
    phBases s'.graph = s'.phLog ∧
    (∀ (ps rest : List Node) (p : Node),
      (∀ n ∈ ps, n.op = NodeOp.placeholder) →
      (∀ n ∈ rest, n.op ≠ NodeOp.placeholder) →
      insertPlaceholder (ps ++ rest) p = ps ++ p :: rest) := by
  obtain ⟨hok, _, _, _, ⟨glob, loads, f6, f7, f8, f9⟩, _⟩ := trace_final_facts h
  obtain ⟨hb1, hb2⟩ := GraphOK_phBases hok
  refine ⟨⟨glob, loads, f9, f8, ?_⟩, hb2, ?_⟩
  · rw [f8, ← hb1, hb2]
  · intro ps rest p hps hrest
    exact insertPlaceholder_shape hps hrest

theorem argument_order_stability_witness :
    ∃ s', traceOutcome "fn0" 8 frameAdd = some (.ok s') ∧
      ((∃ glob loads,
        s'.instructions = glob :: loads ++
          [{ opname := "CALL_FUNCTION", argnum := s'.graphargs.length },
           { opname := "RETURN_VALUE" }] ∧
        loads.map Instr.argstr = argNames s'.graphargs ∧
        loads.map Instr.argstr = s'.phLog) ∧
      phBases s'.graph = s'.phLog ∧
      (∀ (ps rest : List Node) (p : Node),
        (∀ n ∈ ps, n.op = NodeOp.placeholder) →
        (∀ n ∈ rest, n.op ≠ NodeOp.placeholder) →
        insertPlaceholder (ps ++ rest) p = ps ++ p :: rest)) :=
  ⟨_, rfl, argument_order_stability "fn0" 8 frameAdd _ rfl⟩

/-- C3: for every successful trace, the emitted guard set is exactly
the union of the guard sets popped at the conditional jumps executed
along the traced path (the ghost `branchLog`, written only by
`POP_JUMP_IF_FALSE`) and the guard set of the value popped by the
return (the ghost `retGuards`, written only by `RETURN_VALUE`); no
other guards appear, and `convert_frame_assert` emits exactly the
tracer's guard set. -/
theorem guard_set_exactness (uid : String) (fuel : Nat) (frame : Frame)
    (s' : TracerState) (h : traceOutcome uid fuel frame = some (.ok s'))
    (hfile : frame.f_code.co_filename.startsWith "<eval_with_key>" = false) :
    (∃ rg, s'.retGuards = some rg ∧ s'.guards = unionList s'.branchLog ∪ rg) ∧
    (∃ gc, convert_frame_assert uid fuel frame = some (.ok gc) ∧ gc.guards = s'.guards) := by
  obtain ⟨_, hg, _, _, _, _⟩ := trace_final_facts h
  refine ⟨hg, ?_⟩
  unfold convert_frame_assert
  rw [if_neg (by simp [hfile])]
  rw [h]
  exact ⟨_, rfl, rfl⟩

theorem guard_set_exactness_witness :
    ∃ s', traceOutcome "fn0" 10 frameBranch = some (.ok s') ∧
      ((∃ rg, s'.retGuards = some rg ∧ s'.guards = unionList s'.branchLog ∪ rg) ∧
       (∃ gc, convert_frame_assert "fn0" 10 frameBranch = some (.ok gc) ∧
         gc.guards = s'.guards)) :=
  ⟨_, rfl, guard_set_exactness "fn0" 10 frameBranch _ rfl rfl⟩

/-- C6 counterexample: unpacking a 3-item list container into 2 targets
aborts with an `AssertionError` (`assert len(seq.items) == inst.argval`),
which is not the Unsupported signal the claim names. -/
theorem unpack_arity_assert_counterexample :
    step stUnpackMismatch = .error (.assertFail "len(seq.items) == inst.argval") ∧
    (Abort.assertFail "len(seq.items) == inst.argval").isUnsupportedSignal = false :=
  ⟨rfl, rfl⟩

/-- C6 amended: for every sequence-unpack instruction whose popped value
is a container accepted by the list-kind check, an item count different
from the declared arity aborts the trace via an internal assertion
failure — degraded at the orchestrator boundary identically to
Unsupported, never silently truncated — while matching counts push the
items in reverse order, leaving the first item on top; a non-container
value aborts with the Unsupported signal. -/
theorem unpack_sequence_behavior (s : TracerState) (inst : Instr) (v : VT)
    (rest : List VT)
    (hfetch : s.instructions[s.instruction_pointer]? = some inst)
    (hop : inst.opname = "UNPACK_SEQUENCE") (hstack : s.stack = v :: rest) :
    (v.isListVariable = true →
      (v.listItems.length ≠ inst.argnum →
        step s = .error (.assertFail "len(seq.items) == inst.argval")) ∧
      (v.listItems.length = inst.argnum →
        step s = .ok ({ s with instruction_pointer := s.instruction_pointer + 1,
                               stack := v.listItems ++ rest }, true))) ∧
    (v.isListVariable = false →
      step s = .error (.unsupported ("UNPACK_SEQUENCE " ++ v.tyname))) := by
  unfold step
  rw [hfetch]
  dsimp only
  rw [dispatch_eq_of_unpack hop, hop]
  unfold op_UNPACK_SEQUENCE
  have hstack2 : ({ s with instruction_pointer := s.instruction_pointer + 1 } :
      TracerState).stack = v :: rest := hstack
  rw [hstack2]
  dsimp only
  constructor
  · intro hl
    constructor
    · intro hne
      rw [if_pos hl, if_neg hne]
      rfl
    · intro heq
      rw [if_pos hl, if_pos heq]
      rfl
  · intro hl
    rw [if_neg (by simp [hl])]
    rfl

theorem unpack_sequence_behavior_witness :
    step stUnpackMismatch = .error (.assertFail "len(seq.items) == inst.argval") ∧
    step stUnpackMatch = .ok ({ stUnpackMatch with instruction_pointer := 1, stack := [VT.ConstantVariable (.int 1) .UNKNOWN [], VT.ConstantVariable (.int 2) .UNKNOWN []] }, true) ∧
    step stUnpackConst = .error (.unsupported "UNPACK_SEQUENCE ConstantVariable") :=
  ⟨((unpack_sequence_behavior stUnpackMismatch _ _ _ rfl rfl rfl).1 rfl).1 (by decide),
   ((unpack_sequence_behavior stUnpackMatch _ _ _ rfl rfl rfl).1 rfl).2 rfl,
   (unpack_sequence_behavior stUnpackConst _ _ _ rfl rfl rfl).2 rfl⟩

theorem popn_exact {l r : List VT} : popn (l ++ r) l.length = .ok (l.reverse, r) := by
  unfold popn
  rw [if_pos (by simp)]
  rw [List.take_left, List.drop_left]

theorem bind_pair_map {e : Except Abort TracerState} {b : Bool} :
    (e >>= fun s2 => Except.ok (s2, b)) = e.map (fun t => (t, b)) := by
  cases e <;> rfl

theorem bind_ok_reduce {α β : Type} {a : α} {f : α → Except Abort β} :
    (Except.ok a >>= f) = f a := rfl

/-- C5: a conditional jump pops its condition and merges the popped
value's guards into the trace's accumulated guard set (recorded in the
ghost `branchLog`); when the condition is a constant the pointer is
redirected to the jump target exactly when the constant is falsy, and
any non-constant condition aborts the trace.  Branch guards persist
into the final guard set of every successful trace, and a traced
boolean local is wrapped as a constant carrying an ExactValueMatch
(VALUE_MATCH) guard on its origin binding. -/
theorem conditional_branch_behavior :
    (∀ (s : TracerState) (inst : Instr) (val : PyVal) (st : TracingSupported)
       (gs : List Guard) (rest : List VT),
      s.instructions[s.instruction_pointer]? = some inst →
      inst.opname = "POP_JUMP_IF_FALSE" →
      s.stack = VT.ConstantVariable val st gs :: rest →
      (val.truthy = true →
        step s = .ok ({ s with instruction_pointer := s.instruction_pointer + 1, stack := rest, guards := s.guards ∪ gs.toFinset, branchLog := s.branchLog ++ [gs.toFinset] }, true)) ∧
      (∀ t : Nat, val.truthy = false → inst.target = some t → t < s.instructions.length →
        step s = .ok ({ s with instruction_pointer := t, stack := rest, guards := s.guards ∪ gs.toFinset, branchLog := s.branchLog ++ [gs.toFinset] }, true))) ∧
    (∀ (s : TracerState) (inst : Instr) (v : VT) (rest : List VT),
      s.instructions[s.instruction_pointer]? = some inst →
      inst.opname = "POP_JUMP_IF_FALSE" →
      s.stack = v :: rest →
      (∀ (val : PyVal) (st : TracingSupported) (gs : List Guard),
        v ≠ VT.ConstantVariable val st gs) →
      ∃ e, step s = .error e) ∧
    (∀ (uid : String) (fuel : Nat) (frame : Frame) (t : TracerState),
      traceOutcome uid fuel frame = some (.ok t) →
      ∀ gs ∈ t.branchLog, gs ⊆ t.guards) ∧
    (∀ (s : TracerState) (name : String) (b : Bool),
      wrap_local s name (PyObj.vbool b) =
        .ok (s, VT.ConstantVariable (PyVal.bool b) .UNKNOWN [⟨name, .LOCAL, .VALUE_MATCH⟩])) := by
  refine ⟨?_, ?_, ?_, ?_⟩
  · intro s inst val st gs rest hfetch hop hstack
    constructor
    · intro ht
      unfold step
      rw [hfetch]
      dsimp only
      rw [dispatch_eq_of_pjif hop, hop]
      unfold op_POP_JUMP_IF_FALSE
      have hstack2 : ({ s with instruction_pointer := s.instruction_pointer + 1 } :
          TracerState).stack = VT.ConstantVariable val st gs :: rest := hstack
      rw [hstack2]
      dsimp only [VT.guards]
      simp only [Bind.bind, Except.bind]
      rw [if_pos ht]
      rfl
    · intro t ht htgt hlen
      unfold step
      rw [hfetch]
      dsimp only
      rw [dispatch_eq_of_pjif hop, hop]
      unfold op_POP_JUMP_IF_FALSE
      have hstack2 : ({ s with instruction_pointer := s.instruction_pointer + 1 } :
          TracerState).stack = VT.ConstantVariable val st gs :: rest := hstack
      rw [hstack2]
      dsimp only [VT.guards]
      simp only [Bind.bind, Except.bind]
      rw [if_neg (by simp [ht])]
      unfold jump
      rw [htgt]
      dsimp only
      rw [if_pos (show t < _ from hlen)]
      rfl
  · intro s inst v rest hfetch hop hstack hnc
    unfold step
    rw [hfetch]
    dsimp only
    rw [dispatch_eq_of_pjif hop]
    unfold op_POP_JUMP_IF_FALSE
    have hstack2 : ({ s with instruction_pointer := s.instruction_pointer + 1 } :
        TracerState).stack = v :: rest := hstack
    rw [hstack2]
    cases v
    case ConstantVariable a b c => exact absurd rfl (hnc a b c)
    all_goals exact ⟨_, rfl⟩
  · intro uid fuel frame t h gs hgs
    obtain ⟨_, _, _, _, _, hsub⟩ := trace_final_facts h
    exact hsub gs hgs
  · intro s name b
    rfl

theorem conditional_branch_behavior_witness :
    (∃ p : TracerState × Bool, step stBranchTrue = .ok p ∧ p.2 = true ∧
      (⟨"flag", .LOCAL, .VALUE_MATCH⟩ : Guard) ∈ p.1.guards ∧
      p.1.instruction_pointer = 1) ∧
    (∃ p : TracerState × Bool, step stBranchFalse = .ok p ∧
      p.1.instruction_pointer = 3) ∧
    (∃ e, step stBranchTensor = .error e) ∧
    (∃ t, traceOutcome "fn0" 10 frameBranch = some (.ok t) ∧
      ∀ gs ∈ t.branchLog, gs ⊆ t.guards) ∧
    wrap_local (baseState [] []) "flag" (PyObj.vbool true) =
      .ok (baseState [] [],
        VT.ConstantVariable (PyVal.bool true) .UNKNOWN [⟨"flag", .LOCAL, .VALUE_MATCH⟩]) := by
  refine ⟨⟨_, (conditional_branch_behavior.1 stBranchTrue _ _ _ _ _ rfl rfl rfl).1 rfl,
      rfl, by decide, rfl⟩,
    ⟨_, (conditional_branch_behavior.1 stBranchFalse _ _ _ _ _ rfl rfl rfl).2 3 rfl rfl
      (by decide), rfl⟩,
    conditional_branch_behavior.2.1 stBranchTensor _ _ _ rfl rfl rfl
      (fun a b c h => VT.noConfusion h),
    ⟨_, rfl, conditional_branch_behavior.2.2.1 "fn0" 10 frameBranch _ rfl⟩,
    conditional_branch_behavior.2.2.2 (baseState [] []) "flag" true⟩

/-- C9: a `CALL_FUNCTION_KW` whose popped keyword-name constant is the
empty tuple dispatches the callee with zero positional arguments and
empty keyword arguments, silently dropping all `n` popped arguments:
Python's `args[:-0]` is `args[:0] = []` and the keyword dict built from
the empty zip is empty. -/
theorem kw_call_empty_names_drops_args (s : TracerState) (inst : Instr)
    (cst : TracingSupported) (cgs : List Guard) (largs : List VT) (fn : VT)
    (rest : List VT)
    (hfetch : s.instructions[s.instruction_pointer]? = some inst)
    (hop : inst.opname = "CALL_FUNCTION_KW")
    (hstack : s.stack = VT.ConstantVariable (PyVal.tup []) cst cgs :: (largs ++ fn :: rest))
    (hlen : inst.argnum = largs.length) :
    step s = (call_function { s with instruction_pointer := s.instruction_pointer + 1, stack := rest } fn [] []).map (fun t => (t, true)) := by
  unfold step
  rw [hfetch]
  dsimp only
  rw [dispatch_eq_of_kw hop, hop]
  unfold op_CALL_FUNCTION_KW
  have hstack2 : ({ s with instruction_pointer := s.instruction_pointer + 1 } :
      TracerState).stack =
      VT.ConstantVariable (PyVal.tup []) cst cgs :: (largs ++ fn :: rest) := hstack
  rw [hstack2]
  dsimp only
  rw [hlen, popn_exact, bind_ok_reduce]
  dsimp only
  have hcond : (dictOfZip ([] : List PyVal) (pySliceFromNeg largs.reverse ([] : List PyVal).length)).length = ([] : List PyVal).length := by
    simp [dictOfZip]
  rw [if_pos hcond]
  rw [bind_pair_map]
  rfl

theorem kw_call_empty_names_drops_args_witness :
    step stKwEmpty = (call_function { stKwEmpty with instruction_pointer := 1, stack := [] } (VT.AllowedFunctionOrModuleVariable (PyObj.allowedFM "torch.rand" []) .YES []) [] []).map (fun t => (t, true)) :=
  kw_call_empty_names_drops_args stKwEmpty _ _ _
    [VT.ConstantVariable (.int 7) .UNKNOWN [], VT.ConstantVariable (.int 8) .UNKNOWN []]
    _ [] rfl rfl rfl rfl

/-- C10: when every jump target lies strictly after its jumping
instruction, each continuing step strictly increases the instruction
pointer (leaving the instruction stream untouched), and the run loop
finishes — by return, by an abort signal, or by running past the end —
within fuel one greater than the instruction count. -/
theorem forward_jump_termination :
    (∀ (s s' : TracerState), fwdFrom 0 s.instructions = true →
      step s = .ok (s', true) →
      s.instruction_pointer < s'.instruction_pointer ∧ s'.instructions = s.instructions) ∧
    (∀ s : TracerState, fwdFrom 0 s.instructions = true →
      run (s.instructions.length + 1) s ≠ Option.none) := by
  constructor
  · intro s s' hf hstep
    obtain ⟨_, _, _, _, _, hcont, _⟩ := step_effects hstep
    obtain ⟨hinstr, _, _, _, _, hip⟩ := hcont rfl
    refine ⟨hip ?_, hinstr⟩
    intro i inst t hi ht
    have := fwdFrom_spec s.instructions 0 hf i inst t hi ht
    omega
  · intro s hf
    apply run_total
    · intro i inst t hi ht
      have := fwdFrom_spec s.instructions 0 hf i inst t hi ht
      omega
    · omega

theorem forward_jump_termination_witness :
    fwdFrom 0 stForward.instructions = true ∧
    run (stForward.instructions.length + 1) stForward ≠ Option.none ∧
    (∃ p : TracerState × Bool, step stForward = .ok p ∧ p.2 = true ∧
      stForward.instruction_pointer < p.1.instruction_pointer) := by
  refine ⟨rfl, forward_jump_termination.2 stForward rfl, ⟨_, rfl, rfl, ?_⟩⟩
  exact (forward_jump_termination.1 stForward _ rfl rfl).1

end SymbolicConvert
